import Mathlib

/-!
Verification of the PoloDB language-binding core: the document value model,
the bidirectional host-value conversion layer of the Python extension
(`pypolodb/polodb_ext.c`) and the Node.js addon (`polodb.js/db.c`), and the
pull-based cursor protocol used by `find`.

Engine-side functions (declared in `headers/polodb.h` but implemented in the
external engine) are modelled from the specification; each such definition
carries a doc comment starting with `Modelled from the spec:`.
-/

namespace PoloDB

/-- Abstract model of an IEEE-754 double as observed by the bindings.
The bindings never do arithmetic on doubles: they only (a) pass them through
unchanged, (b) ask the host runtime whether the value is mathematically an
integer (`Number.isInteger` / `float.is_integer`), and (c) truncate toward
zero with a C `(int64_t)` cast or `napi_get_value_int64`.  So a double is
modelled by its truncation toward zero (`whole`) together with the flag
`isExact` telling whether the double is mathematically an integer
(in which case its value is exactly `whole`). -/
structure DoubleVal where
  whole : Int
  isExact : Bool
deriving DecidableEq, Repr

mutual

/-- The closed tagged union of `PLDB_VALUE_TYPE` (`headers/polodb.h`, lines
32-43): Null, Double, Boolean, Int, String, ObjectId, Array, Document,
Binary, UTCDateTime. -/
inductive DbValue where
  | null : DbValue
  | boolean (b : Bool) : DbValue
  | int64 (i : Int) : DbValue
  | double (d : DoubleVal) : DbValue
  | str (s : String) : DbValue
  | binary (bytes : List Nat) : DbValue
  | objectId (bytes : List Nat) : DbValue
  | array (a : DbArr) : DbValue
  | document (d : DbDoc) : DbValue
  | utcDateTime (ts : Int) : DbValue

/-- An engine `DbArray`: an ordered, 0-indexed sequence of values. -/
inductive DbArr where
  | nil : DbArr
  | cons (v : DbValue) (rest : DbArr) : DbArr

/-- An engine `DbDocument`: an ordered string-keyed mapping. -/
inductive DbDoc where
  | nil : DbDoc
  | cons (k : String) (v : DbValue) (rest : DbDoc) : DbDoc

end

deriving instance DecidableEq for DbValue
deriving instance DecidableEq for DbArr
deriving instance DecidableEq for DbDoc

/-- Length of an engine array (`PLDB_arr_len`). -/
def DbArr.length : DbArr → Nat
  | .nil => 0
  | .cons _ rest => 1 + rest.length

/-- Modelled from the spec: engine-side `PLDB_arr_get` (`headers/polodb.h`
line 143).  Per §3 of the spec, Array "indexing is bounds-checked and yields
a typed error when out of range, never undefined behavior"; the error return
is modelled as `none`. -/
def PLDB_arr_get : DbArr → Nat → Option DbValue
  | .nil, _ => none
  | .cons v _, 0 => some v
  | .cons _ rest, n + 1 => PLDB_arr_get rest n

/-- Modelled from the spec: engine-side `PLDB_doc_set` family.  Per §3,
"setting an existing key overwrites its value in place and does not change
its iteration position"; a new key is appended, keeping insertion order. -/
def docSet : DbDoc → String → DbValue → DbDoc
  | .nil, k, v => .cons k v .nil
  | .cons k' v' rest, k, v =>
    if k' = k then .cons k' v rest else .cons k' v' (docSet rest k v)

/-- Modelled from the spec: engine-side `PLDB_doc_get`: returns the value
stored under a key, or a "not found" sentinel (`none`). -/
def docGet : DbDoc → String → Option DbValue
  | .nil, _ => none
  | .cons k' v rest, k => if k' = k then some v else docGet rest k

/-- The keys of a document in iteration order. -/
def docKeys : DbDoc → List String
  | .nil => []
  | .cons k _ rest => k :: docKeys rest

/-! ## Python host values (`pypolodb/polodb_ext.c`)

The host universe observed by the extension's type dispatch: `None`, exact
`int`, `bool`, exact `float`, exact `str`, a `PyCapsule` holding a `DbValue`,
a `dict`, a `list`, a `polodb.ObjectId` wrapper, an exact
`datetime.datetime`, and any other object (`other`, carrying the name of its
Python type).  A `datetime` is modelled by the integer its `timestamp()`
float truncates to under the `(int64_t)` cast the C code applies;
`badDatetime` is an exact `datetime.datetime` whose `timestamp()` call
raises (as it can for out-of-range instants), making
`PyObject_CallMethod` return `NULL`. -/

mutual

inductive PyObject where
  | pyNone : PyObject
  | pyBool (b : Bool) : PyObject
  | pyLong (i : Int) : PyObject
  | pyFloat (d : DoubleVal) : PyObject
  | pyStr (s : String) : PyObject
  | capsule (v : DbValue) : PyObject
  | dict (fields : PyDict) : PyObject
  | list (elems : PyList) : PyObject
  | objectIdObj (bytes : List Nat) : PyObject
  | datetime (ts : Int) : PyObject
  | badDatetime : PyObject
  | other (tyName : String) : PyObject

inductive PyList where
  | nil : PyList
  | cons (v : PyObject) (rest : PyList) : PyList

inductive PyDict where
  | nil : PyDict
  | cons (k : String) (v : PyObject) (rest : PyDict) : PyDict

end

deriving instance DecidableEq for PyObject
deriving instance DecidableEq for PyList
deriving instance DecidableEq for PyDict

/-- `PyDict_SetItemString`: inserting under an existing key overwrites its
value in place (CPython dicts preserve the position of overwritten keys);
a new key is appended in insertion order. -/
def dictSet : PyDict → String → PyObject → PyDict
  | .nil, k, v => .cons k v .nil
  | .cons k' v' rest, k, v =>
    if k' = k then .cons k' v rest else .cons k' v' (dictSet rest k v)

/-- `PyDict_GetItemString`-style lookup. -/
def dictGet : PyDict → String → Option PyObject
  | .nil, _ => none
  | .cons k' v rest, k => if k' = k then some v else dictGet rest k

/-- Whether a document key fits the fixed 512-byte `key_buffer` that
`DocumentTypeValueToPyObject` (polodb_ext.c lines 870-874) hands to
`PLDB_doc_iter_next`: the NUL-terminated UTF-8 rendering needs
`utf8ByteSize + 1 ≤ 512` bytes. -/
def keyFits (k : String) : Bool := k.utf8ByteSize < 512

/-! ## Value → Python host (`DbValueToPyObject`, polodb_ext.c lines 932-978)

The `switch` on `PLDB_value_type` handles Null, Double, Boolean, Int,
String, Array, Document, ObjectId and UTCDateTime; `PLDB_VAL_BINARY` is not
among the cases, so a Binary value falls into the `default:` branch, which
raises `RuntimeError("unknow DbValue type")` — modelled as `none`.
`UTCDateTimeTypeValueToPyDate` (lines 913-930) reads the stored timestamp
and builds a `datetime` from it; `DocumentTypeValueToPyObject` (lines
860-893) walks the document iterator inserting each converted child with
`PyDict_SetItemString` (a failed child conversion aborts, modelled as
`none`).  The iterator call renders each key into a fixed 512-byte
`key_buffer` (lines 870-874); per §4.4 of the spec `PLDB_doc_iter_next`
yields a buffer-too-small error for a key that does not fit, which aborts
the conversion — modelled by the `keyFits` guard.
`ArrayTypeValueToPyObject` (lines 826-858) converts element by element,
aborting when a child conversion fails. -/

mutual

def DbValueToPyObject : DbValue → Option PyObject
  | .null => some .pyNone
  | .double d => some (.pyFloat d)
  | .boolean b => some (.pyBool b)
  | .int64 i => some (.pyLong i)
  | .str s => some (.pyStr s)
  | .array a =>
    match ArrayTypeValueToPyObject a with
    | some l => some (.list l)
    | none => none
  | .document d =>
    match DocumentTypeValueToPyObject d with
    | some fs => some (.dict fs)
    | none => none
  | .objectId bs => some (.objectIdObj bs)
  | .utcDateTime ts => some (.datetime ts)
  | .binary _ => none

def ArrayTypeValueToPyObject : DbArr → Option PyList
  | .nil => some .nil
  | .cons v rest =>
    match DbValueToPyObject v with
    | none => none
    | some pv =>
      match ArrayTypeValueToPyObject rest with
      | none => none
      | some prest => some (.cons pv prest)

def DocumentTypeValueToPyObject_loop : DbDoc → PyDict → Option PyDict
  | .nil, acc => some acc
  | .cons k v rest, acc =>
    if keyFits k then
      match DbValueToPyObject v with
      | none => none
      | some pv => DocumentTypeValueToPyObject_loop rest (dictSet acc k pv)
    else none

def DocumentTypeValueToPyObject (d : DbDoc) : Option PyDict :=
  DocumentTypeValueToPyObject_loop d .nil

end

/-! ## Python host → Value (`PyDictToDbDocument_SetProperty`, lines 653-704;
`PyDictToDbDocument`, lines 706-738; `PyListToDbArray_SetElement`, lines
740-788; `PyListToDbArray`, lines 790-811)

The C property setter returns an `int`: negative for an engine error,
positive for a pending Python error, and 0 for success — including the
final fall-through `return 0;` reached when the value matches none of the
dispatched types, which sets nothing (the key is silently skipped).  The
outcome is modelled by `SetResult`. -/

inductive SetResult where
  /-- `ec < 0`: an engine error; the builder raises `PLDB_error_msg()`. -/
  | dbErr : SetResult
  /-- `ec > 0`: a Python error is already pending. -/
  | pyErr : SetResult
  /-- `ec = 0` reached by the fall-through: nothing was set. -/
  | skip : SetResult
  /-- `ec = 0` after storing `v` under the key. -/
  | set (v : DbValue) : SetResult
deriving DecidableEq

mutual

/-- The dispatch of `PyDictToDbDocument_SetProperty`, in source order:
`None`, exact `int`, `bool`, exact `float`, exact `str`, capsule, `dict`,
`list`, `ObjectId` wrapper, `DocumentObject` (a dead branch: that type is
never registered, so it is unreachable and not modelled), exact `datetime`.
A `datetime`'s `timestamp()` is called and the float cast to `int64_t`; a
`datetime` whose `timestamp()` raises makes the branch return 1 (`pyErr`).
When a nested dict or list fails to convert, the C passes the resulting
`NULL` child straight to `PLDB_doc_set_doc`/`PLDB_doc_set_arr`; the engine
cannot store a null child, so per the spec's error convention (§6) that
call is modelled as returning the negative failure sentinel (`dbErr`).
Any other value reaches the trailing `return 0;` — `skip`. -/
def PyDictToDbDocument_SetProperty : PyObject → SetResult
  | .pyNone => .set .null
  | .pyLong i => .set (.int64 i)
  | .pyBool b => .set (.boolean b)
  | .pyFloat d => .set (.double d)
  | .pyStr s => .set (.str s)
  | .capsule v => .set v
  | .dict fields =>
    match PyDictToDbDocument fields with
    | some child => .set (.document child)
    | none => .dbErr
  | .list elems =>
    match PyListToDbArray elems with
    | some child => .set (.array child)
    | none => .dbErr
  | .objectIdObj bs => .set (.objectId bs)
  | .datetime ts => .set (.utcDateTime ts)
  | .badDatetime => .pyErr
  | .other _ => .skip

/-- `PyDictToDbDocument`: makes an empty document, then applies
`PyDictToDbDocument_SetProperty` to each key/value pair of the dict
in iteration order; a negative or positive setter result frees the partial
document and fails. -/
def PyDictToDbDocument_loop : PyDict → DbDoc → Option DbDoc
  | .nil, acc => some acc
  | .cons k v rest, acc =>
    match PyDictToDbDocument_SetProperty v with
    | .set dv => PyDictToDbDocument_loop rest (docSet acc k dv)
    | .skip => PyDictToDbDocument_loop rest acc
    | .dbErr => none
    | .pyErr => none

def PyDictToDbDocument (fields : PyDict) : Option DbDoc :=
  PyDictToDbDocument_loop fields .nil

/-- The dispatch of `PyListToDbArray_SetElement`: identical to the property
setter except that it has no capsule branch, so a capsule element reaches
the fall-through and is skipped. -/
def PyListToDbArray_SetElement : PyObject → SetResult
  | .pyNone => .set .null
  | .pyLong i => .set (.int64 i)
  | .pyBool b => .set (.boolean b)
  | .pyFloat d => .set (.double d)
  | .pyStr s => .set (.str s)
  | .dict fields =>
    match PyDictToDbDocument fields with
    | some child => .set (.document child)
    | none => .dbErr
  | .list elems =>
    match PyListToDbArray elems with
    | some child => .set (.array child)
    | none => .dbErr
  | .objectIdObj bs => .set (.objectId bs)
  | .datetime ts => .set (.utcDateTime ts)
  | .badDatetime => .pyErr
  | .capsule _ => .skip
  | .other _ => .skip

/-- `PyListToDbArray`: allocates `PLDB_mk_arr_with_size(len)` and sets each
index in order.  A skipped element leaves its slot at the array's initial
contents, modelled as Null; an error frees the partial array and fails. -/
def PyListToDbArray_loop : PyList → Option DbArr
  | .nil => some .nil
  | .cons v rest =>
    match PyListToDbArray_SetElement v with
    | .set dv =>
      match PyListToDbArray_loop rest with
      | some arr => some (.cons dv arr)
      | none => none
    | .skip =>
      match PyListToDbArray_loop rest with
      | some arr => some (.cons .null arr)
      | none => none
    | .dbErr => none
    | .pyErr => none

def PyListToDbArray (elems : PyList) : Option DbArr :=
  PyListToDbArray_loop elems

end

/-! ## The Python builders with resource accounting made explicit

The same conversion functions again, now also threading CPython's pending
exception slot (`PyErr_SetString` overwrites it — last error wins, §4.6 of
the spec) and the count of live engine handles the binding holds
(`PLDB_mk_doc`/`PLDB_mk_arr_with_size` and each successful child build add
one, `PLDB_free_doc`/`PLDB_free_arr` on a non-null pointer remove one;
`PLDB_free_doc(NULL)` is a no-op).  The value components are proved below
to agree with the pure functions, so the accounting versions are the same
embedding of polodb_ext.c lines 653-811, not a second one. -/

/-- CPython-side state: `live` engine handles held by the binding and
whether a Python exception is pending. -/
structure PyState where
  live : Nat
  exc : Bool
deriving DecidableEq, Repr

def PyState.allocH (st : PyState) : PyState := { st with live := st.live + 1 }

def PyState.freeH (st : PyState) : PyState := { st with live := st.live - 1 }

/-- `PyErr_SetString`: (over)writes the pending-exception slot. -/
def PyState.raise (st : PyState) : PyState := { st with exc := true }

mutual

def PyDictToDbDocument_SetProperty_st :
    PyObject → PyState → SetResult × PyState
  | .pyNone, st => (.set .null, st)
  | .pyLong i, st => (.set (.int64 i), st)
  | .pyBool b, st => (.set (.boolean b), st)
  | .pyFloat d, st => (.set (.double d), st)
  | .pyStr s, st => (.set (.str s), st)
  | .capsule v, st => (.set v, st)
  | .dict fields, st =>
    match PyDictToDbDocument_st fields st with
    | (some child, st1) =>
      -- PLDB_doc_set_doc copies the child, then PLDB_free_doc frees it
      (.set (.document child), st1.freeH)
    | (none, st1) =>
      -- PLDB_doc_set_doc(doc, key, NULL) fails; PLDB_free_doc(NULL) no-op
      (.dbErr, st1)
  | .list elems, st =>
    match PyListToDbArray_st elems st with
    | (some child, st1) => (.set (.array child), st1.freeH)
    | (none, st1) => (.dbErr, st1)
  | .objectIdObj bs, st => (.set (.objectId bs), st)
  | .datetime ts, st => (.set (.utcDateTime ts), st)
  | .badDatetime, st => (.pyErr, st.raise)
  | .other _, st => (.skip, st)

def PyDictToDbDocument_st (fields : PyDict) (st : PyState) :
    Option DbDoc × PyState :=
  PyDictToDbDocument_st_loop fields .nil st.allocH

def PyDictToDbDocument_st_loop :
    PyDict → DbDoc → PyState → Option DbDoc × PyState
  | .nil, acc, st => (some acc, st)
  | .cons k v rest, acc, st =>
    match PyDictToDbDocument_SetProperty_st v st with
    | (.set dv, st1) => PyDictToDbDocument_st_loop rest (docSet acc k dv) st1
    | (.skip, st1) => PyDictToDbDocument_st_loop rest acc st1
    | (.dbErr, st1) => (none, st1.raise.freeH)
    | (.pyErr, st1) => (none, st1.freeH)

def PyListToDbArray_SetElement_st : PyObject → PyState → SetResult × PyState
  | .pyNone, st => (.set .null, st)
  | .pyLong i, st => (.set (.int64 i), st)
  | .pyBool b, st => (.set (.boolean b), st)
  | .pyFloat d, st => (.set (.double d), st)
  | .pyStr s, st => (.set (.str s), st)
  | .dict fields, st =>
    match PyDictToDbDocument_st fields st with
    | (some child, st1) => (.set (.document child), st1.freeH)
    | (none, st1) => (.dbErr, st1)
  | .list elems, st =>
    match PyListToDbArray_st elems st with
    | (some child, st1) => (.set (.array child), st1.freeH)
    | (none, st1) => (.dbErr, st1)
  | .objectIdObj bs, st => (.set (.objectId bs), st)
  | .datetime ts, st => (.set (.utcDateTime ts), st)
  | .badDatetime, st => (.pyErr, st.raise)
  | .capsule _, st => (.skip, st)
  | .other _, st => (.skip, st)

def PyListToDbArray_st (elems : PyList) (st : PyState) :
    Option DbArr × PyState :=
  PyListToDbArray_st_loop elems st.allocH

def PyListToDbArray_st_loop : PyList → PyState → Option DbArr × PyState
  | .nil, st => (some .nil, st)
  | .cons v rest, st =>
    match PyListToDbArray_SetElement_st v st with
    | (.set dv, st1) =>
      match PyListToDbArray_st_loop rest st1 with
      | (some arr, st2) => (some (.cons dv arr), st2)
      | (none, st2) => (none, st2)
    | (.skip, st1) =>
      match PyListToDbArray_st_loop rest st1 with
      | (some arr, st2) => (some (.cons .null arr), st2)
      | (none, st2) => (none, st2)
    | (.dbErr, st1) => (none, st1.raise.freeH)
    | (.pyErr, st1) => (none, st1.freeH)

end

/-! ## JavaScript host values (`polodb.js/db.c`)

The universe observed through `napi_typeof` plus the `Array.isArray` probe:
`undefined`, `null`, booleans, numbers, strings, plain objects, arrays, and
the remaining `napi_valuetype`s (symbol, function, external, bigint),
collapsed into `otherType` since they all take the same `default:` path. -/

mutual

inductive JsValue where
  | undef : JsValue
  | jsNull : JsValue
  | boolean (b : Bool) : JsValue
  | number (n : DoubleVal) : JsValue
  | jsStr (s : String) : JsValue
  | object (fields : JsFields) : JsValue
  | array (elems : JsElems) : JsValue
  | otherType (tyName : String) : JsValue

inductive JsElems where
  | nil : JsElems
  | cons (v : JsValue) (rest : JsElems) : JsElems

inductive JsFields where
  | nil : JsFields
  | cons (k : String) (v : JsValue) (rest : JsFields) : JsFields

end

deriving instance DecidableEq for JsValue
deriving instance DecidableEq for JsElems
deriving instance DecidableEq for JsFields

/-- Resource/error state threaded through the JS conversion: `live` counts
engine objects handed to the binding and not yet freed (each `PLDB_mk_*`
or `PLDB_*_to_value` adds one, each `PLDB_free_*` on a non-null pointer
removes one); `thrown` is the stack of messages passed to
`napi_throw_type_error`, most recent first. -/
structure JsState where
  live : Nat
  thrown : List String
deriving DecidableEq, Repr

def JsState.alloc (s : JsState) : JsState := { s with live := s.live + 1 }

def JsState.free (s : JsState) : JsState := { s with live := s.live - 1 }

def JsState.throw (s : JsState) (msg : String) : JsState :=
  { s with thrown := msg :: s.thrown }

/-! Values as actually assembled by the JS binding.  The binding pushes the
raw result of `js_value_to_DbValue` into arrays without checking it for
`NULL` (`js_value_to_DbArray`, db.c lines 1660-1682), so array slots hold an
`Option`: `none` records a pushed null pointer. -/

mutual

inductive JsDbValue where
  | null : JsDbValue
  | boolean (b : Bool) : JsDbValue
  | int64 (i : Int) : JsDbValue
  | double (d : DoubleVal) : JsDbValue
  | str (s : String) : JsDbValue
  | array (a : JsRawArr) : JsDbValue
  | document (d : JsRawDoc) : JsDbValue

inductive JsPushed where
  | nullPtr : JsPushed
  | val (v : JsDbValue) : JsPushed

inductive JsRawArr where
  | nil : JsRawArr
  | cons (v : JsPushed) (rest : JsRawArr) : JsRawArr

inductive JsRawDoc where
  | nil : JsRawDoc
  | cons (k : String) (v : JsDbValue) (rest : JsRawDoc) : JsRawDoc

end

deriving instance DecidableEq for JsDbValue
deriving instance DecidableEq for JsPushed
deriving instance DecidableEq for JsRawArr
deriving instance DecidableEq for JsRawDoc

/-- `PLDB_arr_push` appends at the end of the array (the JS builder pushes
elements in order). -/
def jsRawPush : JsRawArr → JsPushed → JsRawArr
  | .nil, v => .cons v .nil
  | .cons v' rest, v => .cons v' (jsRawPush rest v)

/-- Engine `PLDB_doc_set` on the raw document being built (same overwrite-
in-place, append-new-key discipline as `docSet`). -/
def jsRawDocSet : JsRawDoc → String → JsDbValue → JsRawDoc
  | .nil, k, v => .cons k v .nil
  | .cons k' v' rest, k, v =>
    if k' = k then .cons k' v rest else .cons k' v' (jsRawDocSet rest k v)

/-- `js_value_to_NumberTypeDbValue` (db.c lines 1588-1603): asks the host
runtime `Number.isInteger`; an integral number becomes an Int64 via
`napi_get_value_int64`, anything else a Double via `napi_get_value_double`. -/
def js_value_to_NumberTypeDbValue (n : DoubleVal) : JsDbValue :=
  if n.isExact then .int64 n.whole else .double n

/-- Longest prefix of a character list whose UTF-8 rendering fits in
`budget` bytes — how `napi_get_value_string_utf8` truncates at a character
boundary when the destination buffer is too small. -/
def utf8Prefix : Nat → List Char → List Char
  | _, [] => []
  | budget, c :: cs =>
    if c.utf8Size ≤ budget then c :: utf8Prefix (budget - c.utf8Size) cs
    else []

/-- The key actually stored by the JS document builder:
`napi_get_value_string_utf8(env, tmp, key_buffer, 512, ...)` (db.c lines
1715 and 1731) copies at most 511 bytes plus NUL into the fixed buffer,
silently truncating longer keys. -/
def jsKeyRender (k : String) : String := String.mk (utf8Prefix 511 k.data)

/-- The error message thrown by `js_value_to_DbValue`'s `default:` branch. -/
def jsConvertErrMsg : String := "convert to DbValue failed"

mutual

/-- `js_value_to_DbValue` (db.c lines 1605-1658): switch on `napi_typeof`.
Handled cases: `napi_undefined` → Null, `napi_boolean`, `napi_string`,
`napi_number`, `napi_object` (split by `Array.isArray`).  Every other
`napi_valuetype` — including `napi_null` — falls into `default:`, which
throws a type error and returns `NULL`. -/
def js_value_to_DbValue : JsValue → JsState → Option JsDbValue × JsState
  | .undef, s => (some .null, s.alloc)
  | .boolean b, s => (some (.boolean b), s.alloc)
  | .jsStr str, s => (some (.str str), s.alloc)
  | .number n, s => (some (js_value_to_NumberTypeDbValue n), s.alloc)
  | .array es, s =>
    -- isArray: build the array, wrap with PLDB_arr_to_value, free the array
    let (arr, s1) := js_value_to_DbArray_body es s
    (some (.array arr), s1.alloc.free)
  | .object fs, s =>
    match js_value_to_DbDocument_body fs s with
    | (none, s1) => (none, s1)
    | (some doc, s1) => (some (.document doc), s1.alloc.free)
  | .jsNull, s => (none, s.throw jsConvertErrMsg)
  | .otherType _, s => (none, s.throw jsConvertErrMsg)

/-- Body of `js_value_to_DbArray` (db.c lines 1660-1682): `PLDB_mk_arr()`,
then for each element convert and `PLDB_arr_push` the result **without
checking it for `NULL`**, then `PLDB_free_value` it (a no-op on null).  The
function can not fail and never frees the array. -/
def js_value_to_DbArray_body (es : JsElems) (s : JsState) : JsRawArr × JsState :=
  js_value_to_DbArray_loop es .nil s.alloc

def js_value_to_DbArray_loop :
    JsElems → JsRawArr → JsState → JsRawArr × JsState
  | .nil, acc, s => (acc, s)
  | .cons v rest, acc, s =>
    match js_value_to_DbValue v s with
    | (some dv, s1) =>
      js_value_to_DbArray_loop rest (jsRawPush acc (.val dv)) s1.free
    | (none, s1) =>
      js_value_to_DbArray_loop rest (jsRawPush acc .nullPtr) s1

/-- Body of `js_value_to_DbDocument` (db.c lines 1684-1747) after the
typeof check: `PLDB_mk_doc()`, then for each own enumerable key convert the
value; a `NULL` conversion result frees the partial document and returns
`NULL`; otherwise `PLDB_doc_set` stores it — under the key as rendered
into the fixed 512-byte buffer (`jsKeyRender`) — and the temporary is
freed. -/
def js_value_to_DbDocument_body (fs : JsFields) (s : JsState) :
    Option JsRawDoc × JsState :=
  js_value_to_DbDocument_loop fs .nil s.alloc

def js_value_to_DbDocument_loop :
    JsFields → JsRawDoc → JsState → Option JsRawDoc × JsState
  | .nil, acc, s => (some acc, s)
  | .cons k v rest, acc, s =>
    match js_value_to_DbValue v s with
    | (some dv, s1) =>
      js_value_to_DbDocument_loop rest (jsRawDocSet acc (jsKeyRender k) dv)
        s1.free
    | (none, s1) => (none, s1.free)

end

/-- Array indices rendered as string keys, as `napi_get_all_property_names`
with `napi_key_numbers_to_strings` yields them for a JS array. -/
def jsElemsAsFields : Nat → JsElems → JsFields
  | _, .nil => .nil
  | i, .cons v rest => .cons (toString i) v (jsElemsAsFields (i + 1) rest)

/-- `js_value_to_DbArray` as an entry point (always reached with an actual
JS array in `js_value_to_DbValue`). -/
def js_value_to_DbArray (es : JsElems) (s : JsState) : JsRawArr × JsState :=
  js_value_to_DbArray_body es s

/-- `js_value_to_DbDocument` as an entry point: values whose `napi_typeof`
is not `napi_object` are rejected with a thrown type error; arrays pass the
typeof check and are enumerated by their indices rendered as strings
(`napi_key_numbers_to_strings`). -/
def js_value_to_DbDocument (v : JsValue) (s : JsState) :
    Option JsRawDoc × JsState :=
  match v with
  | .object fs => js_value_to_DbDocument_body fs s
  | .array es => js_value_to_DbDocument_body (jsElemsAsFields 0 es) s
  | _ => (none, s.throw "not a valid object")

/-! ## Cursor protocol and `find` (`CollectionObject_find`, polodb_ext.c
lines 352-425) -/

/-- The states reported by `PLDB_handle_state`; the binding compares the
result against `DB_HANDLE_STATE_HAS_ROW = 2`. -/
inductive HandleState where
  | ready : HandleState
  | hasRow : HandleState
  | exhausted : HandleState
deriving DecidableEq, Repr

/-- Modelled from the spec: the engine-side `DbHandle` for one query
execution (§4.3): `Ready` before the first step, `HasRow` with the current
row and the records still to come, `Exhausted` once drained. -/
inductive Cursor where
  | ready (rows : List DbValue) : Cursor
  | hasRow (cur : DbValue) (rest : List DbValue) : Cursor
  | exhausted : Cursor
deriving DecidableEq

/-- Modelled from the spec: `PLDB_handle_step` (§4.3): from `Ready` or
`HasRow`, the next record (in the engine's natural order) gives `HasRow`,
no record gives `Exhausted`; `step` on a terminal state is a no-op. -/
def PLDB_handle_step : Cursor → Cursor
  | .ready [] => .exhausted
  | .ready (r :: rs) => .hasRow r rs
  | .hasRow _ [] => .exhausted
  | .hasRow _ (r :: rs) => .hasRow r rs
  | .exhausted => .exhausted

/-- Modelled from the spec: `PLDB_handle_state`. -/
def PLDB_handle_state : Cursor → HandleState
  | .ready _ => .ready
  | .hasRow _ _ => .hasRow
  | .exhausted => .exhausted

/-- Modelled from the spec: `PLDB_handle_get`, valid in `HasRow`. -/
def PLDB_handle_get : Cursor → Option DbValue
  | .hasRow v _ => some v
  | _ => none

def cursorMeasure : Cursor → Nat
  | .ready rows => rows.length + 1
  | .hasRow _ rest => rest.length + 1
  | .exhausted => 0

/-- The drain loop of `CollectionObject_find`, entered right after a
`PLDB_handle_step` call: it records the state that step call produced, and
while the state is `HasRow` it gets the row, converts it with
`DbValueToPyObject`, appends it to the result list and steps again.
Returns the collected host rows (`none` when a row failed to convert) and
the list of states observed after each `step` call. -/
def CollectionObject_find_loop (c : Cursor) :
    Option (List PyObject) × List HandleState :=
  match c with
  | .hasRow v rest =>
    match DbValueToPyObject v with
    | none => (none, [.hasRow])
    | some py =>
      let (r, sts) := CollectionObject_find_loop (PLDB_handle_step (.hasRow v rest))
      (r.map (py :: ·), .hasRow :: sts)
  | .ready _ => (some [], [.ready])
  | .exhausted => (some [], [.exhausted])
termination_by cursorMeasure c
decreasing_by
  cases rest <;> simp [PLDB_handle_step, cursorMeasure]

/-- `CollectionObject_find` with a null query, driving a fresh cursor over
the collection's rows: one initial `PLDB_handle_step`, then the drain loop. -/
def CollectionObject_find (rows : List DbValue) :
    Option (List PyObject) × List HandleState :=
  CollectionObject_find_loop (PLDB_handle_step (.ready rows))

/-! ## `CollectionObject_insert` (polodb_ext.c lines 306-349) -/

/-- `CollectionObject_insert`: converts the caller's dict to a document and
hands it to `PLDB_insert`.  Modelled from the spec for the engine side: the
engine returns `ec < 0` on failure, `ec = 0` on plain success, and `ec > 0`
after assigning a fresh `"_id"` into the inserted document, where the
assigned value is `newId` (retrieved by the binding with
`PLDB_doc_get(doc, "_id", ...)`).  When `ec > 0` the binding converts that
value and stores it into the caller's original dict under `"_id"` with
`PyDict_SetItemString`; otherwise the dict is returned untouched.  `none`
models a raised Python exception. -/
def CollectionObject_insert (dict : PyDict) (ec : Int) (newId : DbValue) :
    Option PyDict :=
  match PyDictToDbDocument dict with
  | none => none
  | some _doc =>
    if ec < 0 then none
    else if 0 < ec then
      match DbValueToPyObject newId with
      | none => none
      | some pyId => some (dictSet dict "_id" pyId)
    else some dict

/-! ## `js_array_get` (db.c lines 654-684) and `js_mk_utc_datetime`
(db.c lines 273-305) -/

/-- `napi_get_value_uint32`: ECMAScript `ToUint32` of the JS number. -/
def napi_get_value_uint32 (i : Int) : Nat := (i % (2 ^ 32 : Int)).toNat

/-- `js_array_get`: reads the array external and the index, converts the
index with `napi_get_value_uint32`, calls `PLDB_arr_get(arr, index,
&out_val)` — and then returns `NULL` unconditionally, discarding both the
fetched value and the error code of `PLDB_arr_get`. -/
def js_array_get (arr : DbArr) (index : Int) : Option DbValue :=
  let idx := napi_get_value_uint32 index
  let _fetched := PLDB_arr_get arr idx
  none

/-- Modelled from the spec: `PLDB_mk_UTCDateTime` (`headers/polodb.h` lines
220-222, comment "-1 to make current date"): an argument of `-1` yields the
current wall-clock instant `now`, any other argument is stored as given. -/
def PLDB_mk_UTCDateTime (now : Int) (t : Int) : Int :=
  if t = -1 then now else t

/-- `js_mk_utc_datetime`: an `undefined` argument turns into the sentinel
`ts = -1`; a number argument is read with `napi_get_value_int64`; anything
else throws "Wrong arguments" (`none`).  The chosen `ts` is passed to
`PLDB_mk_UTCDateTime`. -/
def js_mk_utc_datetime (now : Int) (arg : JsValue) : Option Int :=
  match arg with
  | .undef => some (PLDB_mk_UTCDateTime now (-1))
  | .number n => some (PLDB_mk_UTCDateTime now n.whole)
  | _ => none

/-! ## Derived notions used to state the properties -/

/-- The Python host → Value conversion as a function on one host value: the
value the property setter would store (its fall-through `skip` and its error
outcomes store nothing, hence `none`). -/
def hostToValue (p : PyObject) : Option DbValue :=
  match PyDictToDbDocument_SetProperty p with
  | .set v => some v
  | _ => none

/-- The round trip of §8 of the spec, through the Python binding:
`hostToValue(valueToHost(v))`. -/
def pyRoundTrip (v : DbValue) : Option DbValue :=
  (DbValueToPyObject v).bind hostToValue

/-- Whether a document binds a key. -/
def docHasKey : DbDoc → String → Bool
  | .nil, _ => false
  | .cons k' _ rest, k => k' = k || docHasKey rest k

/-- Whether a dict binds a key. -/
def dictHasKey : PyDict → String → Bool
  | .nil, _ => false
  | .cons k' _ rest, k => k' = k || dictHasKey rest k

/-- Dict concatenation (used only to reason about the builders). -/
def dictAppend : PyDict → PyDict → PyDict
  | .nil, d => d
  | .cons k v rest, d => .cons k v (dictAppend rest d)

/-- Document concatenation (used only to reason about the builders). -/
def docAppend : DbDoc → DbDoc → DbDoc
  | .nil, d => d
  | .cons k v rest, d => .cons k v (docAppend rest d)

mutual

/-- No Binary payload anywhere in the value. -/
def noBinaryV : DbValue → Bool
  | .binary _ => false
  | .array a => noBinaryA a
  | .document d => noBinaryD d
  | _ => true

def noBinaryA : DbArr → Bool
  | .nil => true
  | .cons v rest => noBinaryV v && noBinaryA rest

def noBinaryD : DbDoc → Bool
  | .nil => true
  | .cons _ v rest => noBinaryV v && noBinaryD rest

end

mutual

/-- Every document inside the value has pairwise-distinct keys — true of
every document the engine's `PLDB_doc_set` interface can build. -/
def uniqKeysV : DbValue → Bool
  | .array a => uniqKeysA a
  | .document d => uniqKeysD d
  | _ => true

def uniqKeysA : DbArr → Bool
  | .nil => true
  | .cons v rest => uniqKeysV v && uniqKeysA rest

def uniqKeysD : DbDoc → Bool
  | .nil => true
  | .cons k v rest => !docHasKey rest k && uniqKeysV v && uniqKeysD rest

end

mutual

/-- Every document key inside the value fits the 512-byte iteration buffer
of `DocumentTypeValueToPyObject`. -/
def keysFitV : DbValue → Bool
  | .array a => keysFitA a
  | .document d => keysFitD d
  | _ => true

def keysFitA : DbArr → Bool
  | .nil => true
  | .cons v rest => keysFitV v && keysFitA rest

def keysFitD : DbDoc → Bool
  | .nil => true
  | .cons k v rest => keyFits k && keysFitV v && keysFitD rest

end

/-- Pairwise-distinct keys of a Python dict (always true of a real `dict`). -/
def uniqKeysPD : PyDict → Bool
  | .nil => true
  | .cons k _ rest => !dictHasKey rest k && uniqKeysPD rest

/-- Structure-preserving rendering of `DocumentTypeValueToPyObject` for
documents with distinct keys (proved below to agree with the loop). -/
def docHostPure : DbDoc → Option PyDict
  | .nil => some .nil
  | .cons k v rest =>
    if keyFits k then
      match DbValueToPyObject v, docHostPure rest with
      | some pv, some prest => some (.cons k pv prest)
      | _, _ => none
    else none

/-- Structure-preserving rendering of `PyDictToDbDocument` for dicts with
distinct keys (proved below to agree with the loop); a skipped entry drops
its key. -/
def dictRebuildPure : PyDict → Option DbDoc
  | .nil => some .nil
  | .cons k pv rest =>
    match PyDictToDbDocument_SetProperty pv with
    | .set dv =>
      match dictRebuildPure rest with
      | some drest => some (.cons k dv drest)
      | none => none
    | .skip => dictRebuildPure rest
    | .dbErr => none
    | .pyErr => none

/-- Row-by-row conversion of a result set, as the `find` loop performs it. -/
def mapConvert : List DbValue → Option (List PyObject)
  | [] => some []
  | r :: rs =>
    match DbValueToPyObject r, mapConvert rs with
    | some p, some ps => some (p :: ps)
    | _, _ => none

/-- Whether a value built by the JS binding carries the Int64 tag. -/
def JsDbValue.isInt64 : JsDbValue → Bool
  | .int64 _ => true
  | _ => false

/-! ## Structural lemmas about the ordered-map helpers -/

@[induction_eliminator]
theorem pyDictInduction {motive : PyDict → Prop} (nil : motive .nil)
    (cons : ∀ (k : String) (v : PyObject) (rest : PyDict),
      motive rest → motive (.cons k v rest)) :
    ∀ d, motive d
  | .nil => nil
  | .cons k v rest => cons k v rest (pyDictInduction nil cons rest)

@[induction_eliminator]
theorem pyListInduction {motive : PyList → Prop} (nil : motive .nil)
    (cons : ∀ (v : PyObject) (rest : PyList),
      motive rest → motive (.cons v rest)) :
    ∀ l, motive l
  | .nil => nil
  | .cons v rest => cons v rest (pyListInduction nil cons rest)

@[induction_eliminator]
theorem dbDocInduction {motive : DbDoc → Prop} (nil : motive .nil)
    (cons : ∀ (k : String) (v : DbValue) (rest : DbDoc),
      motive rest → motive (.cons k v rest)) :
    ∀ d, motive d
  | .nil => nil
  | .cons k v rest => cons k v rest (dbDocInduction nil cons rest)

@[induction_eliminator]
theorem dbArrInduction {motive : DbArr → Prop} (nil : motive .nil)
    (cons : ∀ (v : DbValue) (rest : DbArr),
      motive rest → motive (.cons v rest)) :
    ∀ a, motive a
  | .nil => nil
  | .cons v rest => cons v rest (dbArrInduction nil cons rest)

@[induction_eliminator]
theorem jsElemsInduction {motive : JsElems → Prop} (nil : motive .nil)
    (cons : ∀ (v : JsValue) (rest : JsElems),
      motive rest → motive (.cons v rest)) :
    ∀ l, motive l
  | .nil => nil
  | .cons v rest => cons v rest (jsElemsInduction nil cons rest)

@[induction_eliminator]
theorem jsFieldsInduction {motive : JsFields → Prop} (nil : motive .nil)
    (cons : ∀ (k : String) (v : JsValue) (rest : JsFields),
      motive rest → motive (.cons k v rest)) :
    ∀ l, motive l
  | .nil => nil
  | .cons k v rest => cons k v rest (jsFieldsInduction nil cons rest)

@[induction_eliminator]
theorem jsRawArrInduction {motive : JsRawArr → Prop} (nil : motive .nil)
    (cons : ∀ (v : JsPushed) (rest : JsRawArr),
      motive rest → motive (.cons v rest)) :
    ∀ a, motive a
  | .nil => nil
  | .cons v rest => cons v rest (jsRawArrInduction nil cons rest)

theorem dictAppend_nil (d : PyDict) : dictAppend d .nil = d := by
  induction d with
  | nil => rfl
  | cons k v rest ih => simp [dictAppend, ih]

theorem dictAppend_assoc (a b c : PyDict) :
    dictAppend (dictAppend a b) c = dictAppend a (dictAppend b c) := by
  induction a with
  | nil => rfl
  | cons k v rest ih => simp [dictAppend, ih]

theorem dictSet_append (acc : PyDict) (k : String) (v : PyObject)
    (h : dictHasKey acc k = false) :
    dictSet acc k v = dictAppend acc (.cons k v .nil) := by
  induction acc with
  | nil => rfl
  | cons k' v' rest ih =>
    simp [dictHasKey, Bool.or_eq_false_iff] at h
    simp [dictSet, dictAppend, h.1, ih h.2]

theorem dictHasKey_append (a b : PyDict) (k : String) :
    dictHasKey (dictAppend a b) k = (dictHasKey a k || dictHasKey b k) := by
  induction a with
  | nil => simp [dictAppend, dictHasKey]
  | cons k' v rest ih => simp [dictAppend, dictHasKey, ih, Bool.or_assoc]

theorem docAppend_nil (d : DbDoc) : docAppend d .nil = d := by
  induction d with
  | nil => rfl
  | cons k v rest ih => simp [docAppend, ih]

theorem docAppend_assoc (a b c : DbDoc) :
    docAppend (docAppend a b) c = docAppend a (docAppend b c) := by
  induction a with
  | nil => rfl
  | cons k v rest ih => simp [docAppend, ih]

theorem docSet_append (acc : DbDoc) (k : String) (v : DbValue)
    (h : docHasKey acc k = false) :
    docSet acc k v = docAppend acc (.cons k v .nil) := by
  induction acc with
  | nil => rfl
  | cons k' v' rest ih =>
    simp [docHasKey, Bool.or_eq_false_iff] at h
    simp [docSet, docAppend, h.1, ih h.2]

theorem docHasKey_append (a b : DbDoc) (k : String) :
    docHasKey (docAppend a b) k = (docHasKey a k || docHasKey b k) := by
  induction a with
  | nil => simp [docAppend, docHasKey]
  | cons k' v rest ih => simp [docAppend, docHasKey, ih, Bool.or_assoc]

/-! ## The accumulator loops agree with the structure-preserving renderings -/

theorem DocumentTypeValueToPyObject_loop_append (d : DbDoc) :
    ∀ acc : PyDict,
    (∀ k, docHasKey d k = true → dictHasKey acc k = false) →
    uniqKeysD d = true →
    DocumentTypeValueToPyObject_loop d acc =
      (docHostPure d).map (dictAppend acc) := by
  induction d with
  | nil =>
    intro acc _ _
    simp [DocumentTypeValueToPyObject_loop, docHostPure, dictAppend_nil]
  | cons k v rest ih =>
    intro acc hdisj huniq
    simp only [uniqKeysD, Bool.and_eq_true, Bool.not_eq_true'] at huniq
    obtain ⟨⟨hknotin, _⟩, huniqrest⟩ := huniq
    have hkacc : dictHasKey acc k = false := by
      apply hdisj; simp [docHasKey]
    by_cases hfit : keyFits k = true
    case neg =>
      simp [DocumentTypeValueToPyObject_loop, docHostPure, hfit]
    cases hconv : DbValueToPyObject v with
    | none =>
      simp [DocumentTypeValueToPyObject_loop, docHostPure, hconv, hfit]
    | some pv =>
      have hset : dictSet acc k pv = dictAppend acc (.cons k pv .nil) :=
        dictSet_append acc k pv hkacc
      have hdisj' : ∀ k', docHasKey rest k' = true →
          dictHasKey (dictAppend acc (.cons k pv .nil)) k' = false := by
        intro k' hk'
        rw [dictHasKey_append]
        have h1 : dictHasKey acc k' = false := by
          apply hdisj; simp [docHasKey, hk']
        have h2 : k ≠ k' := by
          intro he
          subst he
          rw [hk'] at hknotin
          simp at hknotin
        simp [h1, dictHasKey, h2]
      have := ih (dictAppend acc (.cons k pv .nil)) hdisj' huniqrest
      simp only [DocumentTypeValueToPyObject_loop, hconv, hset, this,
        docHostPure, hfit, if_true]
      cases docHostPure rest with
      | none => simp
      | some prest => simp [dictAppend_assoc, dictAppend]

theorem DocumentTypeValueToPyObject_eq_pure (d : DbDoc)
    (huniq : uniqKeysD d = true) :
    DocumentTypeValueToPyObject d = docHostPure d := by
  have := DocumentTypeValueToPyObject_loop_append d .nil
    (by intro k _; rfl) huniq
  simpa [DocumentTypeValueToPyObject, dictAppend, Option.map_id] using this

theorem PyDictToDbDocument_loop_append (fs : PyDict) :
    ∀ acc : DbDoc,
    (∀ k, dictHasKey fs k = true → docHasKey acc k = false) →
    uniqKeysPD fs = true →
    PyDictToDbDocument_loop fs acc =
      (dictRebuildPure fs).map (docAppend acc) := by
  induction fs with
  | nil =>
    intro acc _ _
    simp [PyDictToDbDocument_loop, dictRebuildPure, docAppend_nil]
  | cons k pv rest ih =>
    intro acc hdisj huniq
    simp only [uniqKeysPD, Bool.and_eq_true, Bool.not_eq_true'] at huniq
    obtain ⟨hknotin, huniqrest⟩ := huniq
    have hkacc : docHasKey acc k = false := by
      apply hdisj; simp [dictHasKey]
    have hdisjrest : ∀ k', dictHasKey rest k' = true →
        docHasKey acc k' = false := by
      intro k' hk'
      apply hdisj; simp [dictHasKey, hk']
    cases hsp : PyDictToDbDocument_SetProperty pv with
    | dbErr => simp [PyDictToDbDocument_loop, dictRebuildPure, hsp]
    | pyErr => simp [PyDictToDbDocument_loop, dictRebuildPure, hsp]
    | skip =>
      have := ih acc hdisjrest huniqrest
      simp [PyDictToDbDocument_loop, dictRebuildPure, hsp, this]
    | set dv =>
      have hset : docSet acc k dv = docAppend acc (.cons k dv .nil) :=
        docSet_append acc k dv hkacc
      have hdisj' : ∀ k', dictHasKey rest k' = true →
          docHasKey (docAppend acc (.cons k dv .nil)) k' = false := by
        intro k' hk'
        rw [docHasKey_append]
        have h2 : k ≠ k' := by
          intro he
          subst he
          rw [hk'] at hknotin
          simp at hknotin
        simp [hdisjrest k' hk', docHasKey, h2]
      have := ih (docAppend acc (.cons k dv .nil)) hdisj' huniqrest
      simp only [PyDictToDbDocument_loop, hsp, hset, this, dictRebuildPure]
      cases dictRebuildPure rest with
      | none => simp
      | some drest => simp [docAppend_assoc, docAppend]

theorem PyDictToDbDocument_eq_pure (fs : PyDict)
    (huniq : uniqKeysPD fs = true) :
    PyDictToDbDocument fs = dictRebuildPure fs := by
  have := PyDictToDbDocument_loop_append fs .nil
    (by intro k _; rfl) huniq
  simpa [PyDictToDbDocument, docAppend, Option.map_id] using this

theorem docHostPure_hasKey (d : DbDoc) :
    ∀ fs, docHostPure d = some fs → ∀ k, dictHasKey fs k = docHasKey d k := by
  induction d with
  | nil =>
    intro fs h k
    simp only [docHostPure, Option.some.injEq] at h
    subst h
    simp [dictHasKey, docHasKey]
  | cons k v rest ih =>
    intro fs h k'
    simp only [docHostPure] at h
    by_cases hfit : keyFits k = true
    case neg => rw [if_neg hfit] at h; simp at h
    rw [if_pos hfit] at h
    cases hc : DbValueToPyObject v with
    | none => rw [hc] at h; simp at h
    | some pv =>
      rw [hc] at h
      cases hr : docHostPure rest with
      | none => rw [hr] at h; simp at h
      | some prest =>
        rw [hr] at h
        simp only [Option.some.injEq] at h
        subst h
        simp [dictHasKey, docHasKey, ih prest hr k']

theorem docHostPure_uniq (d : DbDoc) :
    ∀ fs, docHostPure d = some fs → uniqKeysD d = true →
      uniqKeysPD fs = true := by
  induction d with
  | nil =>
    intro fs h _
    simp only [docHostPure, Option.some.injEq] at h
    subst h
    rfl
  | cons k v rest ih =>
    intro fs h huniq
    simp only [docHostPure] at h
    simp only [uniqKeysD, Bool.and_eq_true, Bool.not_eq_true'] at huniq
    obtain ⟨⟨hknotin, _⟩, huniqrest⟩ := huniq
    by_cases hfit : keyFits k = true
    case neg => rw [if_neg hfit] at h; simp at h
    rw [if_pos hfit] at h
    cases hc : DbValueToPyObject v with
    | none => rw [hc] at h; simp at h
    | some pv =>
      rw [hc] at h
      cases hr : docHostPure rest with
      | none => rw [hr] at h; simp at h
      | some prest =>
        rw [hr] at h
        simp only [Option.some.injEq] at h
        subst h
        simp [uniqKeysPD, docHostPure_hasKey rest prest hr, hknotin,
          ih prest hr huniqrest]

/-! ## Round trip through the Python binding -/

mutual

theorem pyRT_value :
    ∀ v : DbValue, noBinaryV v = true → uniqKeysV v = true →
    keysFitV v = true →
    ∃ pv, DbValueToPyObject v = some pv ∧
      PyDictToDbDocument_SetProperty pv = SetResult.set v ∧
      PyListToDbArray_SetElement pv = SetResult.set v
  | .null, _, _, _ =>
    ⟨.pyNone, by simp [DbValueToPyObject],
      by simp [PyDictToDbDocument_SetProperty],
      by simp [PyListToDbArray_SetElement]⟩
  | .boolean b, _, _, _ =>
    ⟨.pyBool b, by simp [DbValueToPyObject],
      by simp [PyDictToDbDocument_SetProperty],
      by simp [PyListToDbArray_SetElement]⟩
  | .int64 i, _, _, _ =>
    ⟨.pyLong i, by simp [DbValueToPyObject],
      by simp [PyDictToDbDocument_SetProperty],
      by simp [PyListToDbArray_SetElement]⟩
  | .double d, _, _, _ =>
    ⟨.pyFloat d, by simp [DbValueToPyObject],
      by simp [PyDictToDbDocument_SetProperty],
      by simp [PyListToDbArray_SetElement]⟩
  | .str s, _, _, _ =>
    ⟨.pyStr s, by simp [DbValueToPyObject],
      by simp [PyDictToDbDocument_SetProperty],
      by simp [PyListToDbArray_SetElement]⟩
  | .objectId bs, _, _, _ =>
    ⟨.objectIdObj bs, by simp [DbValueToPyObject],
      by simp [PyDictToDbDocument_SetProperty],
      by simp [PyListToDbArray_SetElement]⟩
  | .utcDateTime ts, _, _, _ =>
    ⟨.datetime ts, by simp [DbValueToPyObject],
      by simp [PyDictToDbDocument_SetProperty],
      by simp [PyListToDbArray_SetElement]⟩
  | .binary _, hb, _, _ => by simp [noBinaryV] at hb
  | .array a, hb, hu, hf => by
    obtain ⟨pl, h1, h2⟩ := pyRT_arr a (by simpa [noBinaryV] using hb)
      (by simpa [uniqKeysV] using hu) (by simpa [keysFitV] using hf)
    refine ⟨.list pl, ?_, ?_, ?_⟩
    · simp [DbValueToPyObject, h1]
    · simp [PyDictToDbDocument_SetProperty, h2]
    · simp [PyListToDbArray_SetElement, h2]
  | .document d, hb, hu, hf => by
    obtain ⟨fs, h1, h2⟩ := pyRT_doc d (by simpa [noBinaryV] using hb)
      (by simpa [uniqKeysV] using hu) (by simpa [keysFitV] using hf)
    refine ⟨.dict fs, ?_, ?_, ?_⟩
    · simp [DbValueToPyObject, h1]
    · simp [PyDictToDbDocument_SetProperty, h2]
    · simp [PyListToDbArray_SetElement, h2]

theorem pyRT_arr :
    ∀ a : DbArr, noBinaryA a = true → uniqKeysA a = true →
    keysFitA a = true →
    ∃ pl, ArrayTypeValueToPyObject a = some pl ∧ PyListToDbArray pl = some a
  | .nil, _, _, _ =>
    ⟨.nil, by simp [ArrayTypeValueToPyObject],
      by simp [PyListToDbArray, PyListToDbArray_loop]⟩
  | .cons v rest, hb, hu, hf => by
    simp only [noBinaryA, Bool.and_eq_true] at hb
    simp only [uniqKeysA, Bool.and_eq_true] at hu
    simp only [keysFitA, Bool.and_eq_true] at hf
    obtain ⟨pv, hv1, _, hv3⟩ := pyRT_value v hb.1 hu.1 hf.1
    obtain ⟨pl, hr1, hr2⟩ := pyRT_arr rest hb.2 hu.2 hf.2
    refine ⟨.cons pv pl, ?_, ?_⟩
    · simp [ArrayTypeValueToPyObject, hv1, hr1]
    · have hloop : PyListToDbArray_loop pl = some rest := by
        simpa [PyListToDbArray] using hr2
      simp [PyListToDbArray, PyListToDbArray_loop, hv3, hloop]

theorem pyRT_doc :
    ∀ d : DbDoc, noBinaryD d = true → uniqKeysD d = true →
    keysFitD d = true →
    ∃ fs, DocumentTypeValueToPyObject d = some fs ∧
      PyDictToDbDocument fs = some d
  | .nil, _, _, _ =>
    ⟨.nil, by simp [DocumentTypeValueToPyObject, DocumentTypeValueToPyObject_loop],
      by simp [PyDictToDbDocument, PyDictToDbDocument_loop]⟩
  | .cons k v rest, hb, hu, hf => by
    simp only [noBinaryD, Bool.and_eq_true] at hb
    have hu' := hu
    simp only [uniqKeysD, Bool.and_eq_true, Bool.not_eq_true'] at hu'
    obtain ⟨⟨hknotin, huv⟩, hurest⟩ := hu'
    simp only [keysFitD, Bool.and_eq_true] at hf
    obtain ⟨⟨hfk, hfv⟩, hfrest⟩ := hf
    obtain ⟨pv, hv1, hv2, _⟩ := pyRT_value v hb.1 huv hfv
    obtain ⟨fs', hr1, hr2⟩ := pyRT_doc rest hb.2 hurest hfrest
    have hpure_rest : docHostPure rest = some fs' := by
      rw [← DocumentTypeValueToPyObject_eq_pure rest hurest]; exact hr1
    have hpure : docHostPure (.cons k v rest) = some (.cons k pv fs') := by
      simp [docHostPure, hv1, hpure_rest, hfk]
    refine ⟨.cons k pv fs', ?_, ?_⟩
    · rw [DocumentTypeValueToPyObject_eq_pure _ hu]; exact hpure
    · have huniqfs : uniqKeysPD (PyDict.cons k pv fs') = true := by
        simp [uniqKeysPD, docHostPure_hasKey rest fs' hpure_rest, hknotin,
          docHostPure_uniq rest fs' hpure_rest hurest]
      rw [PyDictToDbDocument_eq_pure _ huniqfs]
      have hrebuild : dictRebuildPure fs' = some rest := by
        rw [← PyDictToDbDocument_eq_pure fs'
          (docHostPure_uniq rest fs' hpure_rest hurest)]
        exact hr2
      simp [dictRebuildPure, hv2, hrebuild]

end

/-! ## Totality of the Value → Python conversion away from Binary -/

mutual

theorem pyTot_value :
    ∀ v : DbValue, noBinaryV v = true → keysFitV v = true →
    (DbValueToPyObject v).isSome = true
  | .null, _, _ => by simp [DbValueToPyObject]
  | .boolean b, _, _ => by simp [DbValueToPyObject]
  | .int64 i, _, _ => by simp [DbValueToPyObject]
  | .double d, _, _ => by simp [DbValueToPyObject]
  | .str s, _, _ => by simp [DbValueToPyObject]
  | .objectId bs, _, _ => by simp [DbValueToPyObject]
  | .utcDateTime ts, _, _ => by simp [DbValueToPyObject]
  | .binary _, hb, _ => by simp [noBinaryV] at hb
  | .array a, hb, hf => by
    have h := pyTot_arr a (by simpa [noBinaryV] using hb)
      (by simpa [keysFitV] using hf)
    obtain ⟨pl, hpl⟩ := Option.isSome_iff_exists.mp h
    simp [DbValueToPyObject, hpl]
  | .document d, hb, hf => by
    have h := pyTot_doc_loop d (by simpa [noBinaryV] using hb)
      (by simpa [keysFitV] using hf) .nil
    obtain ⟨fs, hfs⟩ := Option.isSome_iff_exists.mp h
    simp [DbValueToPyObject, DocumentTypeValueToPyObject, hfs]

theorem pyTot_arr :
    ∀ a : DbArr, noBinaryA a = true → keysFitA a = true →
    (ArrayTypeValueToPyObject a).isSome = true
  | .nil, _, _ => by simp [ArrayTypeValueToPyObject]
  | .cons v rest, hb, hf => by
    simp only [noBinaryA, Bool.and_eq_true] at hb
    simp only [keysFitA, Bool.and_eq_true] at hf
    obtain ⟨pv, hpv⟩ :=
      Option.isSome_iff_exists.mp (pyTot_value v hb.1 hf.1)
    obtain ⟨pl, hpl⟩ :=
      Option.isSome_iff_exists.mp (pyTot_arr rest hb.2 hf.2)
    simp [ArrayTypeValueToPyObject, hpv, hpl]

theorem pyTot_doc_loop :
    ∀ d : DbDoc, noBinaryD d = true → keysFitD d = true →
    ∀ acc : PyDict, (DocumentTypeValueToPyObject_loop d acc).isSome = true
  | .nil, _, _, acc => by simp [DocumentTypeValueToPyObject_loop]
  | .cons k v rest, hb, hf, acc => by
    simp only [noBinaryD, Bool.and_eq_true] at hb
    simp only [keysFitD, Bool.and_eq_true] at hf
    obtain ⟨⟨hfk, hfv⟩, hfrest⟩ := hf
    obtain ⟨pv, hpv⟩ :=
      Option.isSome_iff_exists.mp (pyTot_value v hb.1 hfv)
    have h := pyTot_doc_loop rest hb.2 hfrest (dictSet acc k pv)
    simp [DocumentTypeValueToPyObject_loop, hpv, h, hfk]

end

/-! ## Live-handle accounting of the JS conversion -/

mutual

theorem jsLive_value :
    ∀ (v : JsValue) (s : JsState),
    (js_value_to_DbValue v s).2.live =
      s.live + (if (js_value_to_DbValue v s).1 = none then 0 else 1)
  | .undef, s => by simp [js_value_to_DbValue, JsState.alloc]
  | .boolean b, s => by simp [js_value_to_DbValue, JsState.alloc]
  | .jsStr str, s => by simp [js_value_to_DbValue, JsState.alloc]
  | .number n, s => by simp [js_value_to_DbValue, JsState.alloc]
  | .jsNull, s => by simp [js_value_to_DbValue, JsState.throw]
  | .otherType name, s => by simp [js_value_to_DbValue, JsState.throw]
  | .array es, s => by
    have h := jsLive_arr_loop es .nil s.alloc
    simp only [js_value_to_DbValue, js_value_to_DbArray_body]
    cases hb : js_value_to_DbArray_loop es .nil s.alloc with
    | mk arr s1 =>
      rw [hb] at h
      simp [JsState.alloc, JsState.free] at h ⊢
      omega
  | .object fs, s => by
    have h := jsLive_doc_loop fs .nil s.alloc
    simp only [js_value_to_DbValue, js_value_to_DbDocument_body]
    cases hb : js_value_to_DbDocument_loop fs .nil s.alloc with
    | mk od s1 =>
      rw [hb] at h
      cases od with
      | none =>
        simp at h
        simp [JsState.alloc] at h ⊢
        omega
      | some doc =>
        simp at h
        simp [JsState.alloc, JsState.free] at h ⊢
        omega

theorem jsLive_arr_loop :
    ∀ (es : JsElems) (acc : JsRawArr) (s : JsState),
    (js_value_to_DbArray_loop es acc s).2.live = s.live
  | .nil, acc, s => by simp [js_value_to_DbArray_loop]
  | .cons v rest, acc, s => by
    have hv := jsLive_value v s
    simp only [js_value_to_DbArray_loop]
    cases hc : js_value_to_DbValue v s with
    | mk ov s1 =>
      rw [hc] at hv
      cases ov with
      | none =>
        simp at hv
        simpa [jsLive_arr_loop rest (jsRawPush acc .nullPtr) s1] using hv
      | some dv =>
        simp at hv
        have h2 := jsLive_arr_loop rest (jsRawPush acc (.val dv)) s1.free
        have hfree : s1.free.live = s.live := by simp [JsState.free, hv]
        rw [hfree] at h2
        exact h2

theorem jsLive_doc_loop :
    ∀ (fs : JsFields) (acc : JsRawDoc) (s : JsState),
    ((js_value_to_DbDocument_loop fs acc s).1 ≠ none →
      (js_value_to_DbDocument_loop fs acc s).2.live = s.live) ∧
    ((js_value_to_DbDocument_loop fs acc s).1 = none →
      (js_value_to_DbDocument_loop fs acc s).2.live = s.live - 1)
  | .nil, acc, s => by simp [js_value_to_DbDocument_loop]
  | .cons k v rest, acc, s => by
    have hv := jsLive_value v s
    simp only [js_value_to_DbDocument_loop]
    cases hc : js_value_to_DbValue v s with
    | mk ov s1 =>
      rw [hc] at hv
      cases ov with
      | none =>
        simp at hv
        simp [JsState.free, hv]
      | some dv =>
        simp at hv
        have ih := jsLive_doc_loop rest (jsRawDocSet acc (jsKeyRender k) dv)
          s1.free
        have hfree : s1.free.live = s.live := by simp [JsState.free, hv]
        rw [hfree] at ih
        exact ih

end

/-- The array builder of the JS binding always returns a live array handle:
whatever errors its element conversions threw, the partially built array
survives (it is never freed on the error path). -/
theorem js_value_to_DbArray_live (es : JsElems) (s : JsState) :
    (js_value_to_DbArray es s).2.live = s.live + 1 := by
  have h := jsLive_arr_loop es .nil s.alloc
  simp only [js_value_to_DbArray, js_value_to_DbArray_body]
  simpa [JsState.alloc] using h

/-! ## The accounting builders agree with the pure ones -/

mutual

theorem pySt_setprop_agree :
    ∀ (v : PyObject) (st : PyState),
    (PyDictToDbDocument_SetProperty_st v st).1 =
      PyDictToDbDocument_SetProperty v
  | .pyNone, st => by
    simp [PyDictToDbDocument_SetProperty_st, PyDictToDbDocument_SetProperty]
  | .pyLong i, st => by
    simp [PyDictToDbDocument_SetProperty_st, PyDictToDbDocument_SetProperty]
  | .pyBool b, st => by
    simp [PyDictToDbDocument_SetProperty_st, PyDictToDbDocument_SetProperty]
  | .pyFloat d, st => by
    simp [PyDictToDbDocument_SetProperty_st, PyDictToDbDocument_SetProperty]
  | .pyStr s, st => by
    simp [PyDictToDbDocument_SetProperty_st, PyDictToDbDocument_SetProperty]
  | .capsule v, st => by
    simp [PyDictToDbDocument_SetProperty_st, PyDictToDbDocument_SetProperty]
  | .objectIdObj bs, st => by
    simp [PyDictToDbDocument_SetProperty_st, PyDictToDbDocument_SetProperty]
  | .datetime ts, st => by
    simp [PyDictToDbDocument_SetProperty_st, PyDictToDbDocument_SetProperty]
  | .badDatetime, st => by
    simp [PyDictToDbDocument_SetProperty_st, PyDictToDbDocument_SetProperty]
  | .other name, st => by
    simp [PyDictToDbDocument_SetProperty_st, PyDictToDbDocument_SetProperty]
  | .dict fields, st => by
    have h := pySt_doc_loop_agree fields .nil st.allocH
    simp only [PyDictToDbDocument_SetProperty_st, PyDictToDbDocument_st,
      PyDictToDbDocument_SetProperty, PyDictToDbDocument]
    cases hb : PyDictToDbDocument_st_loop fields .nil st.allocH with
    | mk o st1 =>
      rw [hb] at h
      simp only at h
      rw [← h]
      cases o <;> simp
  | .list elems, st => by
    have h := pySt_arr_loop_agree elems st.allocH
    simp only [PyDictToDbDocument_SetProperty_st, PyListToDbArray_st,
      PyDictToDbDocument_SetProperty, PyListToDbArray]
    cases hb : PyListToDbArray_st_loop elems st.allocH with
    | mk o st1 =>
      rw [hb] at h
      simp only at h
      rw [← h]
      cases o <;> simp

theorem pySt_setelem_agree :
    ∀ (v : PyObject) (st : PyState),
    (PyListToDbArray_SetElement_st v st).1 = PyListToDbArray_SetElement v
  | .pyNone, st => by
    simp [PyListToDbArray_SetElement_st, PyListToDbArray_SetElement]
  | .pyLong i, st => by
    simp [PyListToDbArray_SetElement_st, PyListToDbArray_SetElement]
  | .pyBool b, st => by
    simp [PyListToDbArray_SetElement_st, PyListToDbArray_SetElement]
  | .pyFloat d, st => by
    simp [PyListToDbArray_SetElement_st, PyListToDbArray_SetElement]
  | .pyStr s, st => by
    simp [PyListToDbArray_SetElement_st, PyListToDbArray_SetElement]
  | .capsule v, st => by
    simp [PyListToDbArray_SetElement_st, PyListToDbArray_SetElement]
  | .objectIdObj bs, st => by
    simp [PyListToDbArray_SetElement_st, PyListToDbArray_SetElement]
  | .datetime ts, st => by
    simp [PyListToDbArray_SetElement_st, PyListToDbArray_SetElement]
  | .badDatetime, st => by
    simp [PyListToDbArray_SetElement_st, PyListToDbArray_SetElement]
  | .other name, st => by
    simp [PyListToDbArray_SetElement_st, PyListToDbArray_SetElement]
  | .dict fields, st => by
    have h := pySt_doc_loop_agree fields .nil st.allocH
    simp only [PyListToDbArray_SetElement_st, PyDictToDbDocument_st,
      PyListToDbArray_SetElement, PyDictToDbDocument]
    cases hb : PyDictToDbDocument_st_loop fields .nil st.allocH with
    | mk o st1 =>
      rw [hb] at h
      simp only at h
      rw [← h]
      cases o <;> simp
  | .list elems, st => by
    have h := pySt_arr_loop_agree elems st.allocH
    simp only [PyListToDbArray_SetElement_st, PyListToDbArray_st,
      PyListToDbArray_SetElement, PyListToDbArray]
    cases hb : PyListToDbArray_st_loop elems st.allocH with
    | mk o st1 =>
      rw [hb] at h
      simp only at h
      rw [← h]
      cases o <;> simp

theorem pySt_doc_loop_agree :
    ∀ (fields : PyDict) (acc : DbDoc) (st : PyState),
    (PyDictToDbDocument_st_loop fields acc st).1 =
      PyDictToDbDocument_loop fields acc
  | .nil, acc, st => by
    simp [PyDictToDbDocument_st_loop, PyDictToDbDocument_loop]
  | .cons k v rest, acc, st => by
    have hsp := pySt_setprop_agree v st
    simp only [PyDictToDbDocument_st_loop, PyDictToDbDocument_loop]
    cases hb : PyDictToDbDocument_SetProperty_st v st with
    | mk r st1 =>
      rw [hb] at hsp
      simp only at hsp
      rw [← hsp]
      cases r with
      | set dv => simpa using pySt_doc_loop_agree rest (docSet acc k dv) st1
      | skip => simpa using pySt_doc_loop_agree rest acc st1
      | dbErr => simp
      | pyErr => simp

theorem pySt_arr_loop_agree :
    ∀ (elems : PyList) (st : PyState),
    (PyListToDbArray_st_loop elems st).1 = PyListToDbArray_loop elems
  | .nil, st => by simp [PyListToDbArray_st_loop, PyListToDbArray_loop]
  | .cons v rest, st => by
    have hse := pySt_setelem_agree v st
    simp only [PyListToDbArray_st_loop, PyListToDbArray_loop]
    cases hb : PyListToDbArray_SetElement_st v st with
    | mk r st1 =>
      rw [hb] at hse
      simp only at hse
      rw [← hse]
      cases r with
      | set dv =>
        have ih := pySt_arr_loop_agree rest st1
        cases hb2 : PyListToDbArray_st_loop rest st1 with
        | mk o2 st2 =>
          rw [hb2] at ih
          simp only at ih
          rw [← ih]
          cases o2 <;> simp [hb2]
      | skip =>
        have ih := pySt_arr_loop_agree rest st1
        cases hb2 : PyListToDbArray_st_loop rest st1 with
        | mk o2 st2 =>
          rw [hb2] at ih
          simp only at ih
          rw [← ih]
          cases o2 <;> simp [hb2]
      | dbErr => simp
      | pyErr => simp

end

theorem pySt_doc_agree (fields : PyDict) (st : PyState) :
    (PyDictToDbDocument_st fields st).1 = PyDictToDbDocument fields := by
  simp only [PyDictToDbDocument_st, PyDictToDbDocument]
  exact pySt_doc_loop_agree fields .nil st.allocH

theorem pySt_arr_agree (elems : PyList) (st : PyState) :
    (PyListToDbArray_st elems st).1 = PyListToDbArray elems := by
  simp only [PyListToDbArray_st, PyListToDbArray]
  exact pySt_arr_loop_agree elems st.allocH

/-! ## Handle and pending-exception accounting of the Python builders -/

mutual

theorem pySt_setprop_live :
    ∀ (v : PyObject) (st : PyState),
    (PyDictToDbDocument_SetProperty_st v st).2.live = st.live ∧
    ((PyDictToDbDocument_SetProperty_st v st).1 = SetResult.pyErr →
      (PyDictToDbDocument_SetProperty_st v st).2.exc = true)
  | .pyNone, st => by simp [PyDictToDbDocument_SetProperty_st]
  | .pyLong i, st => by simp [PyDictToDbDocument_SetProperty_st]
  | .pyBool b, st => by simp [PyDictToDbDocument_SetProperty_st]
  | .pyFloat d, st => by simp [PyDictToDbDocument_SetProperty_st]
  | .pyStr s, st => by simp [PyDictToDbDocument_SetProperty_st]
  | .capsule v, st => by simp [PyDictToDbDocument_SetProperty_st]
  | .objectIdObj bs, st => by simp [PyDictToDbDocument_SetProperty_st]
  | .datetime ts, st => by simp [PyDictToDbDocument_SetProperty_st]
  | .badDatetime, st => by
    simp [PyDictToDbDocument_SetProperty_st, PyState.raise]
  | .other name, st => by simp [PyDictToDbDocument_SetProperty_st]
  | .dict fields, st => by
    have h := pySt_doc_loop_live fields .nil st.allocH
    simp only [PyDictToDbDocument_SetProperty_st, PyDictToDbDocument_st]
    cases hb : PyDictToDbDocument_st_loop fields .nil st.allocH with
    | mk o st1 =>
      rw [hb] at h
      cases o with
      | some child =>
        have h1 := h.1 (by simp)
        simp only at h1
        constructor
        · simp [PyState.freeH, PyState.allocH] at h1 ⊢
          omega
        · intro hc
          simp at hc
      | none =>
        have h2 := h.2 (by simp)
        simp only at h2
        constructor
        · simp [PyState.allocH] at h2 ⊢
          omega
        · intro hc
          simp at hc
  | .list elems, st => by
    have h := pySt_arr_loop_live elems st.allocH
    simp only [PyDictToDbDocument_SetProperty_st, PyListToDbArray_st]
    cases hb : PyListToDbArray_st_loop elems st.allocH with
    | mk o st1 =>
      rw [hb] at h
      cases o with
      | some child =>
        have h1 := h.1 (by simp)
        simp only at h1
        constructor
        · simp [PyState.freeH, PyState.allocH] at h1 ⊢
          omega
        · intro hc
          simp at hc
      | none =>
        have h2 := h.2 (by simp)
        simp only at h2
        constructor
        · simp [PyState.allocH] at h2 ⊢
          omega
        · intro hc
          simp at hc

theorem pySt_setelem_live :
    ∀ (v : PyObject) (st : PyState),
    (PyListToDbArray_SetElement_st v st).2.live = st.live ∧
    ((PyListToDbArray_SetElement_st v st).1 = SetResult.pyErr →
      (PyListToDbArray_SetElement_st v st).2.exc = true)
  | .pyNone, st => by simp [PyListToDbArray_SetElement_st]
  | .pyLong i, st => by simp [PyListToDbArray_SetElement_st]
  | .pyBool b, st => by simp [PyListToDbArray_SetElement_st]
  | .pyFloat d, st => by simp [PyListToDbArray_SetElement_st]
  | .pyStr s, st => by simp [PyListToDbArray_SetElement_st]
  | .capsule v, st => by simp [PyListToDbArray_SetElement_st]
  | .objectIdObj bs, st => by simp [PyListToDbArray_SetElement_st]
  | .datetime ts, st => by simp [PyListToDbArray_SetElement_st]
  | .badDatetime, st => by
    simp [PyListToDbArray_SetElement_st, PyState.raise]
  | .other name, st => by simp [PyListToDbArray_SetElement_st]
  | .dict fields, st => by
    have h := pySt_doc_loop_live fields .nil st.allocH
    simp only [PyListToDbArray_SetElement_st, PyDictToDbDocument_st]
    cases hb : PyDictToDbDocument_st_loop fields .nil st.allocH with
    | mk o st1 =>
      rw [hb] at h
      cases o with
      | some child =>
        have h1 := h.1 (by simp)
        simp only at h1
        constructor
        · simp [PyState.freeH, PyState.allocH] at h1 ⊢
          omega
        · intro hc
          simp at hc
      | none =>
        have h2 := h.2 (by simp)
        simp only at h2
        constructor
        · simp [PyState.allocH] at h2 ⊢
          omega
        · intro hc
          simp at hc
  | .list elems, st => by
    have h := pySt_arr_loop_live elems st.allocH
    simp only [PyListToDbArray_SetElement_st, PyListToDbArray_st]
    cases hb : PyListToDbArray_st_loop elems st.allocH with
    | mk o st1 =>
      rw [hb] at h
      cases o with
      | some child =>
        have h1 := h.1 (by simp)
        simp only at h1
        constructor
        · simp [PyState.freeH, PyState.allocH] at h1 ⊢
          omega
        · intro hc
          simp at hc
      | none =>
        have h2 := h.2 (by simp)
        simp only at h2
        constructor
        · simp [PyState.allocH] at h2 ⊢
          omega
        · intro hc
          simp at hc

theorem pySt_doc_loop_live :
    ∀ (fields : PyDict) (acc : DbDoc) (st : PyState),
    ((PyDictToDbDocument_st_loop fields acc st).1 ≠ none →
      (PyDictToDbDocument_st_loop fields acc st).2.live = st.live) ∧
    ((PyDictToDbDocument_st_loop fields acc st).1 = none →
      (PyDictToDbDocument_st_loop fields acc st).2.live = st.live - 1 ∧
      (PyDictToDbDocument_st_loop fields acc st).2.exc = true)
  | .nil, acc, st => by simp [PyDictToDbDocument_st_loop]
  | .cons k v rest, acc, st => by
    have hsp := pySt_setprop_live v st
    simp only [PyDictToDbDocument_st_loop]
    cases hb : PyDictToDbDocument_SetProperty_st v st with
    | mk r st1 =>
      rw [hb] at hsp
      simp only at hsp
      cases r with
      | set dv =>
        have ih := pySt_doc_loop_live rest (docSet acc k dv) st1
        rw [hsp.1] at ih
        exact ih
      | skip =>
        have ih := pySt_doc_loop_live rest acc st1
        rw [hsp.1] at ih
        exact ih
      | dbErr =>
        constructor
        · intro hc; simp at hc
        · intro _
          simp [PyState.raise, PyState.freeH, hsp.1]
      | pyErr =>
        constructor
        · intro hc; simp at hc
        · intro _
          have hexc := hsp.2 rfl
          simp [PyState.freeH, hsp.1, hexc]

theorem pySt_arr_loop_live :
    ∀ (elems : PyList) (st : PyState),
    ((PyListToDbArray_st_loop elems st).1 ≠ none →
      (PyListToDbArray_st_loop elems st).2.live = st.live) ∧
    ((PyListToDbArray_st_loop elems st).1 = none →
      (PyListToDbArray_st_loop elems st).2.live = st.live - 1 ∧
      (PyListToDbArray_st_loop elems st).2.exc = true)
  | .nil, st => by simp [PyListToDbArray_st_loop]
  | .cons v rest, st => by
    have hse := pySt_setelem_live v st
    simp only [PyListToDbArray_st_loop]
    cases hb : PyListToDbArray_SetElement_st v st with
    | mk r st1 =>
      rw [hb] at hse
      simp only at hse
      cases r with
      | set dv =>
        have ih := pySt_arr_loop_live rest st1
        rw [hse.1] at ih
        cases hb2 : PyListToDbArray_st_loop rest st1 with
        | mk o2 st2 =>
          rw [hb2] at ih
          cases o2 with
          | some arr =>
            have h1 := ih.1 (by simp)
            simp only at h1
            constructor
            · intro _
              simp [hb2, h1]
            · intro hc
              simp [hb2] at hc
          | none =>
            have h2 := ih.2 (by simp)
            simp only at h2
            constructor
            · intro hc
              simp [hb2] at hc
            · intro _
              simp [hb2, h2.1, h2.2]
      | skip =>
        have ih := pySt_arr_loop_live rest st1
        rw [hse.1] at ih
        cases hb2 : PyListToDbArray_st_loop rest st1 with
        | mk o2 st2 =>
          rw [hb2] at ih
          cases o2 with
          | some arr =>
            have h1 := ih.1 (by simp)
            simp only at h1
            constructor
            · intro _
              simp [hb2, h1]
            · intro hc
              simp [hb2] at hc
          | none =>
            have h2 := ih.2 (by simp)
            simp only at h2
            constructor
            · intro hc
              simp [hb2] at hc
            · intro _
              simp [hb2, h2.1, h2.2]
      | dbErr =>
        constructor
        · intro hc; simp at hc
        · intro _
          simp [PyState.raise, PyState.freeH, hse.1]
      | pyErr =>
        constructor
        · intro hc; simp at hc
        · intro _
          have hexc := hse.2 rfl
          simp [PyState.freeH, hse.1, hexc]

end

/-- Failure of `PyDictToDbDocument` releases the document it allocated —
the net live-handle count is back where it started — and returns with the
(single) pending Python exception set. -/
theorem PyDictToDbDocument_st_release (fields : PyDict) (st : PyState)
    (h : (PyDictToDbDocument_st fields st).1 = none) :
    (PyDictToDbDocument_st fields st).2.live = st.live ∧
    (PyDictToDbDocument_st fields st).2.exc = true := by
  have hl := pySt_doc_loop_live fields .nil st.allocH
  simp only [PyDictToDbDocument_st] at h ⊢
  have := hl.2 h
  simpa [PyState.allocH] using this

/-- Failure of `PyListToDbArray` likewise releases the array it allocated
and returns with the pending exception set. -/
theorem PyListToDbArray_st_release (elems : PyList) (st : PyState)
    (h : (PyListToDbArray_st elems st).1 = none) :
    (PyListToDbArray_st elems st).2.live = st.live ∧
    (PyListToDbArray_st elems st).2.exc = true := by
  have hl := pySt_arr_loop_live elems st.allocH
  simp only [PyListToDbArray_st] at h ⊢
  have := hl.2 h
  simpa [PyState.allocH] using this

/-- Failure of the JS document builder releases the document it allocated. -/
theorem js_value_to_DbDocument_body_release (fs : JsFields) (s : JsState)
    (h : (js_value_to_DbDocument_body fs s).1 = none) :
    (js_value_to_DbDocument_body fs s).2.live = s.live := by
  have hl := jsLive_doc_loop fs .nil s.alloc
  simp only [js_value_to_DbDocument_body] at h ⊢
  have := hl.2 h
  simpa [JsState.alloc] using this

/-! ## Bounds behavior of the array accessors -/

theorem PLDB_arr_get_lt :
    ∀ (a : DbArr) (n : Nat), n < a.length → (PLDB_arr_get a n).isSome = true := by
  intro a
  induction a with
  | nil => intro n hn; simp [DbArr.length] at hn
  | cons v rest ih =>
    intro n hn
    cases n with
    | zero => simp [PLDB_arr_get]
    | succ m =>
      simp only [DbArr.length] at hn
      exact (by simpa [PLDB_arr_get] using ih m (by omega))

theorem PLDB_arr_get_ge :
    ∀ (a : DbArr) (n : Nat), a.length ≤ n → PLDB_arr_get a n = none := by
  intro a
  induction a with
  | nil => intro n _; simp [PLDB_arr_get]
  | cons v rest ih =>
    intro n hn
    cases n with
    | zero => simp [DbArr.length] at hn
    | succ m =>
      simp only [DbArr.length] at hn
      exact (by simpa [PLDB_arr_get] using ih m (by omega))

/-! ## Dict update preserves every other key -/

theorem dictGet_dictSet_ne (d : PyDict) (k k' : String) (v : PyObject)
    (h : k ≠ k') : dictGet (dictSet d k v) k' = dictGet d k' := by
  induction d with
  | nil => simp [dictSet, dictGet, h]
  | cons k0 v0 rest ih =>
    by_cases h0 : k0 = k
    · subst h0
      simp [dictSet, dictGet, h]
    · simp only [dictSet, h0, if_false]
      by_cases h1 : k0 = k'
      · subst h1; simp [dictGet]
      · simp [dictGet, h1, ih]

/-! ## Draining the find cursor -/

theorem CollectionObject_find_loop_hasRow :
    ∀ (rest : List DbValue) (v : DbValue) (pv : PyObject) (pys : List PyObject),
    DbValueToPyObject v = some pv → mapConvert rest = some pys →
    CollectionObject_find_loop (.hasRow v rest) =
      (some (pv :: pys),
       List.replicate (rest.length + 1) HandleState.hasRow ++
         [HandleState.exhausted]) := by
  intro rest
  induction rest with
  | nil =>
    intro v pv pys hconv hmap
    simp only [mapConvert, Option.some.injEq] at hmap
    subst hmap
    simp [CollectionObject_find_loop, hconv, PLDB_handle_step, List.replicate]
  | cons r rs ih =>
    intro v pv pys hconv hmap
    simp only [mapConvert] at hmap
    cases hr : DbValueToPyObject r with
    | none => rw [hr] at hmap; simp at hmap
    | some pr =>
      rw [hr] at hmap
      cases hrs : mapConvert rs with
      | none => rw [hrs] at hmap; simp at hmap
      | some prs =>
        rw [hrs] at hmap
        simp only [Option.some.injEq] at hmap
        subst hmap
        have := ih r pr prs hr hrs
        simp [CollectionObject_find_loop, hconv, PLDB_handle_step, this,
          List.replicate]

/-! ## The claims -/

/-- C1, counterexample: the round trip fails on a Binary value — converting
`Binary` to a Python host value already raises "unknow DbValue type", so
`hostToValue(valueToHost(v))` is not `v` for `v = Binary []`. -/
theorem C1_counterexample :
    pyRoundTrip (DbValue.binary []) ≠ some (DbValue.binary []) := by
  simp [pyRoundTrip, DbValueToPyObject]

/-- C1, amended: for every Value containing no Binary payload, whose
documents carry the pairwise-distinct keys the engine's `PLDB_doc_set`
interface guarantees, and whose document keys fit the 512-byte iteration
buffer of `DocumentTypeValueToPyObject` (longer keys abort the conversion
with the spec's buffer-too-small error), converting to a Python host value
and back yields a structurally equal Value: same tag, same payload, same
Document key order, same Array element order. -/
theorem C1_roundTrip (v : DbValue) (hb : noBinaryV v = true)
    (hu : uniqKeysV v = true) (hf : keysFitV v = true) :
    pyRoundTrip v = some v := by
  obtain ⟨pv, h1, h2, _⟩ := pyRT_value v hb hu hf
  simp [pyRoundTrip, h1, hostToValue, h2]

/-- C1, witness: the round trip at a concrete nested Value. -/
theorem C1_roundTrip_witness :
    noBinaryV (.document (.cons "a" (.int64 1)
      (.cons "b" (.array (.cons (.str "x")
        (.cons (.double ⟨1, false⟩) .nil))) .nil))) = true ∧
    uniqKeysV (.document (.cons "a" (.int64 1)
      (.cons "b" (.array (.cons (.str "x")
        (.cons (.double ⟨1, false⟩) .nil))) .nil))) = true ∧
    keysFitV (.document (.cons "a" (.int64 1)
      (.cons "b" (.array (.cons (.str "x")
        (.cons (.double ⟨1, false⟩) .nil))) .nil))) = true ∧
    pyRoundTrip (.document (.cons "a" (.int64 1)
      (.cons "b" (.array (.cons (.str "x")
        (.cons (.double ⟨1, false⟩) .nil))) .nil))) =
      some (.document (.cons "a" (.int64 1)
        (.cons "b" (.array (.cons (.str "x")
          (.cons (.double ⟨1, false⟩) .nil))) .nil))) :=
  ⟨by simp [noBinaryV, noBinaryA, noBinaryD],
   by simp [uniqKeysV, uniqKeysA, uniqKeysD, docHasKey],
   by
     have ha : keyFits "a" = true := by decide
     have hb2 : keyFits "b" = true := by decide
     simp [keysFitV, keysFitA, keysFitD, ha, hb2],
   C1_roundTrip _ (by simp [noBinaryV, noBinaryA, noBinaryD])
     (by simp [uniqKeysV, uniqKeysA, uniqKeysD, docHasKey])
     (by
       have ha : keyFits "a" = true := by decide
       have hb2 : keyFits "b" = true := by decide
       simp [keysFitV, keysFitA, keysFitD, ha, hb2])⟩

/-- C2, counterexample: the Value → host conversion is not total over all
ten variants — it fails on Binary (the `switch` in `DbValueToPyObject` has
no `PLDB_VAL_BINARY` case, so Binary takes the error `default:` branch). -/
theorem C2_counterexample : DbValueToPyObject (DbValue.binary []) = none := by
  simp [DbValueToPyObject]

/-- C2, amended: the Value → host conversion is total on every value built
from the other nine variants whose document keys fit the 512-byte
iteration buffer: it produces exactly one host representation and never
fails.  (Binary values fail, and a document key of 512 or more UTF-8 bytes
makes `PLDB_doc_iter_next` report the spec's buffer-too-small error.) -/
theorem C2_total (v : DbValue) (hb : noBinaryV v = true)
    (hf : keysFitV v = true) :
    (DbValueToPyObject v).isSome = true := pyTot_value v hb hf

/-- C2, witness: totality at a concrete value. -/
theorem C2_total_witness :
    noBinaryV (.document (.cons "t" (.utcDateTime 5) .nil)) = true ∧
    keysFitV (.document (.cons "t" (.utcDateTime 5) .nil)) = true ∧
    (DbValueToPyObject (.document (.cons "t" (.utcDateTime 5) .nil))).isSome =
      true :=
  ⟨by simp [noBinaryV, noBinaryD],
   by
     have ht : keyFits "t" = true := by decide
     simp [keysFitV, keysFitD, ht],
   C2_total _ (by simp [noBinaryV, noBinaryD])
     (by
       have ht : keyFits "t" = true := by decide
       simp [keysFitV, keysFitD, ht])⟩

/-- C3, counterexample: the Python binding converts the host float `2.0` —
for which Python's own is-integer predicate (`(2.0).is_integer()`) holds —
to a Double, not an Int64: the dispatch tests the static type
(`PyFloat_CheckExact`), not integrality. -/
theorem C3_counterexample :
    DoubleVal.isExact ⟨2, true⟩ = true ∧
    PyDictToDbDocument_SetProperty (.pyFloat ⟨2, true⟩) =
      SetResult.set (.double ⟨2, true⟩) ∧
    SetResult.set (DbValue.double ⟨2, true⟩) ≠
      SetResult.set (DbValue.int64 2) := by
  refine ⟨rfl, by simp [PyDictToDbDocument_SetProperty], by simp⟩

/-- C3, amended: the JS binding yields Int64 exactly when the host's
`Number.isInteger` holds; the Python binding dispatches on the exact static
type instead — `int` always becomes Int64 and `float` always becomes
Double, even when the float is mathematically an integer. -/
theorem C3_numeric (n : DoubleVal) (i : Int) (d : DoubleVal) :
    (js_value_to_NumberTypeDbValue n).isInt64 = n.isExact ∧
    PyDictToDbDocument_SetProperty (.pyLong i) = SetResult.set (.int64 i) ∧
    PyDictToDbDocument_SetProperty (.pyFloat d) = SetResult.set (.double d) := by
  refine ⟨?_, by simp [PyDictToDbDocument_SetProperty],
    by simp [PyDictToDbDocument_SetProperty]⟩
  cases hn : n.isExact <;>
    simp [js_value_to_NumberTypeDbValue, hn, JsDbValue.isInt64]

/-- C4, counterexample: a JS `null` — a null-equivalent host value — is not
converted to the Null Value: `js_value_to_DbValue` only handles
`napi_undefined`, so `napi_null` falls into `default:`, which converts
nothing and throws a type error. -/
theorem C4_counterexample :
    (js_value_to_DbValue .jsNull ⟨0, []⟩).1 = none ∧
    (js_value_to_DbValue .jsNull ⟨0, []⟩).2.thrown = [jsConvertErrMsg] := by
  constructor <;> simp [js_value_to_DbValue, JsState.throw]

/-- C4, amended: `undefined` converts to Null without error in the JS
binding, and Python's `None` converts to Null; but a JS `null` is rejected
with a thrown conversion error rather than converted. -/
theorem C4_nullish (s : JsState) :
    js_value_to_DbValue .undef s = (some .null, s.alloc) ∧
    PyDictToDbDocument_SetProperty .pyNone = SetResult.set .null ∧
    js_value_to_DbValue .jsNull s = (none, s.throw jsConvertErrMsg) := by
  refine ⟨by simp [js_value_to_DbValue], ?_, by simp [js_value_to_DbValue]⟩
  simp [PyDictToDbDocument_SetProperty]

/-- C5, counterexample: converting the JS array `[null]` — whose single
element fails to convert — does not abort the Array construction and does
not release the partial work: the builder pushes the null result, keeps the
array live (`live = 1`), and returns it while the error is pending. -/
theorem C5_counterexample :
    js_value_to_DbArray (.cons .jsNull .nil) ⟨0, []⟩ =
      (.cons .nullPtr .nil, ⟨1, [jsConvertErrMsg]⟩) := by
  simp [js_value_to_DbArray, js_value_to_DbArray_body,
    js_value_to_DbArray_loop, js_value_to_DbValue, JsState.alloc,
    JsState.throw, jsRawPush]

/-- C5, amended: the Python builders honor the partial-failure policy —
any failure while `PyDictToDbDocument` or `PyListToDbArray` builds a
compound value releases everything constructed for that call (the live
engine-handle count returns to its starting point) and returns with the
single pending Python exception set — and the JS document builder likewise
releases its partially built document whenever a contained value fails to
convert.  The JS array builder alone violates the policy: it never aborts
and always returns a still-live array handle, whatever errors were thrown
while converting its elements. -/
theorem C5_cleanup (fields : PyDict) (elems : PyList) (st : PyState)
    (fs : JsFields) (es : JsElems) (s : JsState) :
    ((PyDictToDbDocument_st fields st).1 = none →
      (PyDictToDbDocument_st fields st).2.live = st.live ∧
      (PyDictToDbDocument_st fields st).2.exc = true) ∧
    ((PyListToDbArray_st elems st).1 = none →
      (PyListToDbArray_st elems st).2.live = st.live ∧
      (PyListToDbArray_st elems st).2.exc = true) ∧
    ((js_value_to_DbDocument_body fs s).1 = none →
      (js_value_to_DbDocument_body fs s).2.live = s.live) ∧
    (js_value_to_DbArray es s).2.live = s.live + 1 :=
  ⟨fun h => PyDictToDbDocument_st_release fields st h,
   fun h => PyListToDbArray_st_release elems st h,
   fun h => js_value_to_DbDocument_body_release fs s h,
   js_value_to_DbArray_live es s⟩

/-- C5, witness: the cleanup facts at concrete inputs — a dict whose value
fails to convert (a `datetime` whose `timestamp()` raises) is released
with the exception pending, while the JS array built from `[null]` stays
live. -/
theorem C5_cleanup_witness :
    (PyDictToDbDocument_st (.cons "a" .badDatetime .nil) ⟨0, false⟩).1 =
      none ∧
    (PyDictToDbDocument_st (.cons "a" .badDatetime .nil) ⟨0, false⟩).2.live =
      0 ∧
    (PyDictToDbDocument_st (.cons "a" .badDatetime .nil) ⟨0, false⟩).2.exc =
      true ∧
    (js_value_to_DbArray (.cons .jsNull .nil) ⟨0, []⟩).2.live = 0 + 1 := by
  have hfail : (PyDictToDbDocument_st (.cons "a" .badDatetime .nil)
      ⟨0, false⟩).1 = none := by
    simp [PyDictToDbDocument_st, PyDictToDbDocument_st_loop,
      PyDictToDbDocument_SetProperty_st, PyState.allocH, PyState.raise,
      PyState.freeH]
  have h := C5_cleanup (.cons "a" .badDatetime .nil) .nil ⟨0, false⟩
    .nil (.cons .jsNull .nil) ⟨0, []⟩
  exact ⟨hfail, (h.1 hfail).1, (h.1 hfail).2, h.2.2.2⟩

/-- C6, counterexample: in the Python binding a host value of an
unsupported type is silently accepted: the property setter's fall-through
returns success without storing anything, so the surrounding dict
conversion succeeds with the key silently dropped — no ConversionError is
raised. -/
theorem C6_counterexample :
    PyDictToDbDocument_SetProperty (.other "set") = SetResult.skip ∧
    PyDictToDbDocument (.cons "k" (.other "set") .nil) = some .nil := by
  constructor
  · simp [PyDictToDbDocument_SetProperty]
  · simp [PyDictToDbDocument, PyDictToDbDocument_loop,
      PyDictToDbDocument_SetProperty]

/-- C6, amended: an unsupported host value is silently skipped by the
Python binding (the key is simply not set and conversion continues), while
the JS binding does raise an error — but a generic "convert to DbValue
failed" that does not name the unsupported host type. -/
theorem C6_unsupported (name k : String) (fields : PyDict) (acc : DbDoc)
    (s : JsState) :
    PyDictToDbDocument_SetProperty (.other name) = SetResult.skip ∧
    PyDictToDbDocument_loop (.cons k (.other name) fields) acc =
      PyDictToDbDocument_loop fields acc ∧
    js_value_to_DbValue (.otherType name) s =
      (none, s.throw jsConvertErrMsg) := by
  refine ⟨by simp [PyDictToDbDocument_SetProperty], ?_,
    by simp [js_value_to_DbValue]⟩
  simp [PyDictToDbDocument_loop, PyDictToDbDocument_SetProperty]

/-- C7: a null-query find over N rows drains the cursor with exactly N+1
`step` calls — the first N observed in `HasRow`, each yielding one row, the
last in `Exhausted` — and returns all N converted rows in the engine's
natural order. -/
theorem C7_findDrain (rows : List DbValue) (pys : List PyObject)
    (h : mapConvert rows = some pys) :
    CollectionObject_find rows =
      (some pys, List.replicate rows.length HandleState.hasRow ++
        [HandleState.exhausted]) := by
  cases rows with
  | nil =>
    simp only [mapConvert, Option.some.injEq] at h
    subst h
    simp [CollectionObject_find, PLDB_handle_step, CollectionObject_find_loop]
  | cons r rs =>
    simp only [mapConvert] at h
    cases hr : DbValueToPyObject r with
    | none => rw [hr] at h; simp at h
    | some pr =>
      rw [hr] at h
      cases hrs : mapConvert rs with
      | none => rw [hrs] at h; simp at h
      | some prs =>
        rw [hrs] at h
        simp only [Option.some.injEq] at h
        subst h
        have := CollectionObject_find_loop_hasRow rs r pr prs hr hrs
        simp [CollectionObject_find, PLDB_handle_step, this, List.replicate]

/-- C7, witness: draining a one-document collection takes 2 step calls. -/
theorem C7_findDrain_witness :
    mapConvert [DbValue.document (.cons "x" (.int64 1) .nil)] =
      some [PyObject.dict (.cons "x" (.pyLong 1) .nil)] ∧
    CollectionObject_find [DbValue.document (.cons "x" (.int64 1) .nil)] =
      (some [PyObject.dict (.cons "x" (.pyLong 1) .nil)],
       List.replicate 1 HandleState.hasRow ++ [HandleState.exhausted]) :=
  ⟨by
     have hx : keyFits "x" = true := by decide
     simp [mapConvert, DbValueToPyObject, DocumentTypeValueToPyObject,
       DocumentTypeValueToPyObject_loop, dictSet, hx],
   C7_findDrain _ _ (by
     have hx : keyFits "x" = true := by decide
     simp [mapConvert, DbValueToPyObject, DocumentTypeValueToPyObject,
       DocumentTypeValueToPyObject_loop, dictSet, hx])⟩

/-- C8: the engine-level accessor is bounds-checked as claimed — in-range
indices succeed, `len` and the `ToUint32` image of `-1` fail — but the JS
surface `js_array_get` discards both the fetched value and the error code
of `PLDB_arr_get` and returns nothing for every input, so at the binding
surface an in-range `get` silently yields no result and an out-of-range
`get` raises no error. -/
theorem C8_jsArrayGet :
    js_array_get (.cons (.int64 42) .nil) 0 = none ∧
    PLDB_arr_get (.cons (.int64 42) .nil) 0 = some (.int64 42) ∧
    PLDB_arr_get (.cons (.int64 42) .nil) (napi_get_value_uint32 (-1)) =
      none ∧
    PLDB_arr_get (.cons (.int64 42) .nil) 1 = none := by
  have hbig : napi_get_value_uint32 (-1) = 4294967295 := by
    norm_num [napi_get_value_uint32]
    rfl
  refine ⟨by simp [js_array_get], by simp [PLDB_arr_get], ?_, ?_⟩
  · rw [hbig]
    exact PLDB_arr_get_ge _ _ (by simp [DbArr.length])
  · exact PLDB_arr_get_ge _ _ (by simp [DbArr.length])

/-- C9: when the engine's insert reports an assigned identifier (positive
return), the binding sets `"_id"` on the caller's original dict to the
engine-assigned value; on plain success (zero) the dict is returned
untouched; in both cases every key other than `"_id"` is unchanged. -/
theorem C9_insert (dict : PyDict) (ec : Int) (newId : DbValue)
    (pyId : PyObject) (k : String)
    (hdoc : (PyDictToDbDocument dict).isSome = true)
    (hconv : DbValueToPyObject newId = some pyId)
    (hpos : 0 < ec) (hk : k ≠ "_id") :
    CollectionObject_insert dict ec newId = some (dictSet dict "_id" pyId) ∧
    dictGet (dictSet dict "_id" pyId) k = dictGet dict k ∧
    CollectionObject_insert dict 0 newId = some dict := by
  obtain ⟨d0, hd0⟩ := Option.isSome_iff_exists.mp hdoc
  refine ⟨?_, dictGet_dictSet_ne dict "_id" k pyId (Ne.symm hk), ?_⟩
  · have hneg : ¬ ec < 0 := by omega
    simp [CollectionObject_insert, hd0, hconv, hpos, hneg]
  · simp [CollectionObject_insert, hd0]

/-- C9, witness: the insert effect at a concrete dict. -/
theorem C9_insert_witness :
    (PyDictToDbDocument (.cons "a" (.pyLong 1) .nil)).isSome = true ∧
    DbValueToPyObject (.objectId [1, 2]) = some (.objectIdObj [1, 2]) ∧
    (0 : Int) < 1 ∧ ("a" : String) ≠ "_id" ∧
    (CollectionObject_insert (.cons "a" (.pyLong 1) .nil) 1
        (.objectId [1, 2]) =
       some (dictSet (.cons "a" (.pyLong 1) .nil) "_id"
        (.objectIdObj [1, 2])) ∧
     dictGet (dictSet (.cons "a" (.pyLong 1) .nil) "_id"
        (.objectIdObj [1, 2])) "a" =
       dictGet (.cons "a" (.pyLong 1) .nil) "a" ∧
     CollectionObject_insert (.cons "a" (.pyLong 1) .nil) 0
        (.objectId [1, 2]) =
       some (.cons "a" (.pyLong 1) .nil)) :=
  ⟨by simp [PyDictToDbDocument, PyDictToDbDocument_loop,
      PyDictToDbDocument_SetProperty, docSet],
   by simp [DbValueToPyObject], by decide, by decide,
   C9_insert (.cons "a" (.pyLong 1) .nil) 1 (.objectId [1, 2])
     (.objectIdObj [1, 2]) "a"
     (by simp [PyDictToDbDocument, PyDictToDbDocument_loop,
        PyDictToDbDocument_SetProperty, docSet])
     (by simp [DbValueToPyObject]) (by decide) (by decide)⟩

/-- C10: omitting the timestamp argument passes the sentinel `-1`, which
the engine turns into "now" — so an explicit argument of `-1` is
indistinguishable from omitting it, and (the wall clock being at or after
the epoch) no call can construct the instant one millisecond before the
epoch. -/
theorem C10_utcDateTime (now : Int) (arg : JsValue) (hnow : 0 ≤ now) :
    js_mk_utc_datetime now .undef =
      js_mk_utc_datetime now (.number ⟨-1, true⟩) ∧
    js_mk_utc_datetime now arg ≠ some (-1) := by
  constructor
  · simp [js_mk_utc_datetime, PLDB_mk_UTCDateTime]
  · cases arg with
    | undef =>
      simp [js_mk_utc_datetime, PLDB_mk_UTCDateTime]
      omega
    | number n =>
      simp only [js_mk_utc_datetime, PLDB_mk_UTCDateTime]
      by_cases h : n.whole = -1
      · simp [h]
        omega
      · simp [h]
    | jsNull => simp [js_mk_utc_datetime]
    | boolean b => simp [js_mk_utc_datetime]
    | jsStr s' => simp [js_mk_utc_datetime]
    | object fs => simp [js_mk_utc_datetime]
    | array es => simp [js_mk_utc_datetime]
    | otherType t => simp [js_mk_utc_datetime]

/-- C10, witness: at `now = 5`, the sentinel behavior at concrete inputs. -/
theorem C10_utcDateTime_witness :
    (0 : Int) ≤ 5 ∧
    (js_mk_utc_datetime 5 .undef =
       js_mk_utc_datetime 5 (.number ⟨-1, true⟩) ∧
     js_mk_utc_datetime 5 (.number ⟨-1, true⟩) ≠ some (-1)) :=
  ⟨by decide, C10_utcDateTime 5 (.number ⟨-1, true⟩) (by decide)⟩

end PoloDB
